import Mathlib

/-!
SPI_VFD: bit-banged serial driver for a character display

A shallow embedding of `SPI_VFD.cpp` / `SPI_VFD.h`.

* The driver object is the record `SPI_VFD`; a member function becomes a function
  from the object to the updated object paired with the list of calls it made to
  the Arduino core (`pinMode`, `digitalWrite`, `delayMicroseconds`), in program order.
* A `uint8_t` is a natural number below 256.  Where C converts an `int` to a
  `uint8_t` (an assignment to a field, an argument of `command`) the embedding
  reduces modulo 256 explicitly.
* Reading an array past its end is undefined behaviour; the two functions that
  read an array (`setCursor`, `createChar`) return `none` in that case.
-/

set_option linter.unusedVariables false

/-! ## Constants of `SPI_VFD.h` -/

abbrev VFD_CLEARDISPLAY : Nat := 0x01
abbrev VFD_RETURNHOME : Nat := 0x02
abbrev VFD_ENTRYMODESET : Nat := 0x04
abbrev VFD_DISPLAYCONTROL : Nat := 0x08
abbrev VFD_CURSORSHIFT : Nat := 0x10
abbrev VFD_FUNCTIONSET : Nat := 0x30
abbrev VFD_SETCGRAMADDR : Nat := 0x40
abbrev VFD_SETDDRAMADDR : Nat := 0x80

abbrev VFD_ENTRYRIGHT : Nat := 0x00
abbrev VFD_ENTRYLEFT : Nat := 0x02
abbrev VFD_ENTRYSHIFTINCREMENT : Nat := 0x01
abbrev VFD_ENTRYSHIFTDECREMENT : Nat := 0x00

abbrev VFD_DISPLAYON : Nat := 0x04
abbrev VFD_DISPLAYOFF : Nat := 0x00
abbrev VFD_CURSORON : Nat := 0x02
abbrev VFD_CURSOROFF : Nat := 0x00
abbrev VFD_BLINKON : Nat := 0x01
abbrev VFD_BLINKOFF : Nat := 0x00

abbrev VFD_DISPLAYMOVE : Nat := 0x08
abbrev VFD_CURSORMOVE : Nat := 0x00
abbrev VFD_MOVERIGHT : Nat := 0x04
abbrev VFD_MOVELEFT : Nat := 0x00

abbrev VFD_2LINE : Nat := 0x08
abbrev VFD_1LINE : Nat := 0x00
abbrev VFD_BRIGHTNESS100 : Nat := 0x00

abbrev VFD_SPICOMMAND : Nat := 0xF8
abbrev VFD_SPIDATA : Nat := 0xFA

/-! ## The names `SPI_VFD.cpp` uses

`SPI_VFD.cpp` spells every constant with the prefix `LCD_`; the header declares the
same constants with the prefix `VFD_`.  Each `LCD_` name below is the header constant
of the same suffix. -/

abbrev LCD_CLEARDISPLAY : Nat := VFD_CLEARDISPLAY
abbrev LCD_RETURNHOME : Nat := VFD_RETURNHOME
abbrev LCD_ENTRYMODESET : Nat := VFD_ENTRYMODESET
abbrev LCD_DISPLAYCONTROL : Nat := VFD_DISPLAYCONTROL
abbrev LCD_CURSORSHIFT : Nat := VFD_CURSORSHIFT
abbrev LCD_FUNCTIONSET : Nat := VFD_FUNCTIONSET
abbrev LCD_SETCGRAMADDR : Nat := VFD_SETCGRAMADDR
abbrev LCD_SETDDRAMADDR : Nat := VFD_SETDDRAMADDR
abbrev LCD_ENTRYLEFT : Nat := VFD_ENTRYLEFT
abbrev LCD_ENTRYSHIFTINCREMENT : Nat := VFD_ENTRYSHIFTINCREMENT
abbrev LCD_ENTRYSHIFTDECREMENT : Nat := VFD_ENTRYSHIFTDECREMENT
abbrev LCD_DISPLAYON : Nat := VFD_DISPLAYON
abbrev LCD_CURSORON : Nat := VFD_CURSORON
abbrev LCD_CURSOROFF : Nat := VFD_CURSOROFF
abbrev LCD_BLINKON : Nat := VFD_BLINKON
abbrev LCD_BLINKOFF : Nat := VFD_BLINKOFF
abbrev LCD_DISPLAYMOVE : Nat := VFD_DISPLAYMOVE
abbrev LCD_MOVERIGHT : Nat := VFD_MOVERIGHT
abbrev LCD_MOVELEFT : Nat := VFD_MOVELEFT
abbrev LCD_2LINE : Nat := VFD_2LINE
abbrev LCD_SPICOMMAND : Nat := VFD_SPICOMMAND
abbrev LCD_SPIDATA : Nat := VFD_SPIDATA

/-- The two constants `SPI_VFD.cpp` uses that the header has under no name:
`LCD_8BITMODE` (the initial function flags, in `init`) and `LCD_5x10DOTS` (the
larger-font flag, in `begin`).  Their values are parameters of the embedding. -/
structure Consts where
  LCD_8BITMODE : Nat
  LCD_5x10DOTS : Nat
deriving DecidableEq

/-! ## The Arduino core, as seen by the driver -/

/-- The two levels `digitalWrite` takes. -/
inductive Level
  | LOW
  | HIGH
deriving DecidableEq

/-- One call into the Arduino core.  `pinMode` is only ever called with `OUTPUT`. -/
inductive Event
  | pinMode (pin : Nat)
  | digitalWrite (pin : Nat) (val : Level)
  | delayMicroseconds (us : Nat)
deriving DecidableEq

/-- The calls made by a piece of code, in program order. -/
abbrev Trace := List Event

/-- The avr-libc bit-value function: `_BV(i)` is `1 << i`. -/
def _BV (i : Nat) : Nat := 1 <<< i

/-- Conversion of an `int` to `uint8_t`. -/
def toU8 (z : Int) : Nat := (z % 256).toNat

/-- The compound assignment `x &= ~m` on a `uint8_t` field `x` with an `int` constant
`m`.  C promotes both operands to `int` and converts the result back to `uint8_t`,
so only the low 8 bits of `~m` take part, and those are `0xFF ^ m`: the bits of `m`
are cleared in `x` (`andNot_int` below proves the agreement with `int` arithmetic). -/
def andNot (x m : Nat) : Nat := x &&& (0xFF ^^^ (m % 256))

/-- The compound assignment `x |= m` on a `uint8_t` field. -/
def orAssign (x m : Nat) : Nat := (x ||| m) % 256

/-! ## The driver object -/

/-- The private data members of class `SPI_VFD`. -/
structure SPI_VFD where
  _clock : Nat
  _data : Nat
  _chipselect : Nat
  _displayfunction : Nat
  _displaycontrol : Nat
  _displaymode : Nat
  _initialized : Nat
  _numlines : Nat
  _currline : Nat
deriving DecidableEq

namespace SPI_VFD

/-- The body of the loop of `send`, run for `i = n-1` down to `0`. -/
def send_loop (s : SPI_VFD) (c : Nat) : Nat → Trace
  | 0 => []
  | i + 1 =>
    [Event.digitalWrite s._clock Level.LOW,
     if c &&& _BV i ≠ 0 then Event.digitalWrite s._data Level.HIGH
     else Event.digitalWrite s._data Level.LOW,
     Event.digitalWrite s._clock Level.HIGH] ++ send_loop s c i

/-- `SPI_VFD::send`: write spi data. -/
def send (s : SPI_VFD) (c : Nat) : Trace :=
  Event.digitalWrite s._clock Level.HIGH :: send_loop s c 8

/-- `SPI_VFD::command`. -/
def command (s : SPI_VFD) (value : Nat) : SPI_VFD × Trace :=
  let t1 := if s._chipselect ≠ 0 then [Event.digitalWrite s._chipselect Level.LOW] else []
  let t2 := send s LCD_SPICOMMAND
  let t3 := send s value
  let t4 := if s._chipselect ≠ 0 then [Event.digitalWrite s._chipselect Level.HIGH] else []
  (s, t1 ++ t2 ++ t3 ++ t4)

/-- `SPI_VFD::write`. -/
def write (s : SPI_VFD) (value : Nat) : SPI_VFD × Trace :=
  let t1 := if s._chipselect ≠ 0 then [Event.digitalWrite s._chipselect Level.LOW] else []
  let t2 := send s LCD_SPIDATA
  let t3 := send s value
  let t4 := if s._chipselect ≠ 0 then [Event.digitalWrite s._chipselect Level.HIGH] else []
  (s, t1 ++ t2 ++ t3 ++ t4)

/-- `SPI_VFD::clear`. -/
def clear (s : SPI_VFD) : SPI_VFD × Trace :=
  let r := command s LCD_CLEARDISPLAY
  (r.1, r.2 ++ [Event.delayMicroseconds 2000])

/-- `SPI_VFD::home`. -/
def home (s : SPI_VFD) : SPI_VFD × Trace :=
  let r := command s LCD_RETURNHOME
  (r.1, r.2 ++ [Event.delayMicroseconds 2000])

/-- The local array `row_offsets` of `setCursor`. -/
def row_offsets : List Nat := [0x00, 0x40, 0x14, 0x54]

/-- The value of the local `row` of `setCursor` after the `if`: replaced by
`_numlines-1` (computed in `int`, stored in a `uint8_t`) when `row > _numlines`. -/
def setCursor_row (s : SPI_VFD) (row : Nat) : Nat :=
  if row > s._numlines then toU8 ((s._numlines : Int) - 1) else row

/-- `SPI_VFD::setCursor`.  `none` when `row_offsets[row]` is read past the end. -/
def setCursor (s : SPI_VFD) (col row : Nat) : Option (SPI_VFD × Trace) :=
  match row_offsets[setCursor_row s row]? with
  | none => none
  | some off => some (command s ((LCD_SETDDRAMADDR ||| (col + off)) % 256))

/-- `SPI_VFD::noDisplay`. -/
def noDisplay (s : SPI_VFD) : SPI_VFD × Trace :=
  let s1 := { s with _displaycontrol := andNot s._displaycontrol LCD_DISPLAYON }
  command s1 ((LCD_DISPLAYCONTROL ||| s1._displaycontrol) % 256)

/-- `SPI_VFD::display`. -/
def display (s : SPI_VFD) : SPI_VFD × Trace :=
  let s1 := { s with _displaycontrol := orAssign s._displaycontrol LCD_DISPLAYON }
  command s1 ((LCD_DISPLAYCONTROL ||| s1._displaycontrol) % 256)

/-- `SPI_VFD::noCursor`. -/
def noCursor (s : SPI_VFD) : SPI_VFD × Trace :=
  let s1 := { s with _displaycontrol := andNot s._displaycontrol LCD_CURSORON }
  command s1 ((LCD_DISPLAYCONTROL ||| s1._displaycontrol) % 256)

/-- `SPI_VFD::cursor`. -/
def cursor (s : SPI_VFD) : SPI_VFD × Trace :=
  let s1 := { s with _displaycontrol := orAssign s._displaycontrol LCD_CURSORON }
  command s1 ((LCD_DISPLAYCONTROL ||| s1._displaycontrol) % 256)

/-- `SPI_VFD::noBlink`. -/
def noBlink (s : SPI_VFD) : SPI_VFD × Trace :=
  let s1 := { s with _displaycontrol := andNot s._displaycontrol LCD_BLINKON }
  command s1 ((LCD_DISPLAYCONTROL ||| s1._displaycontrol) % 256)

/-- `SPI_VFD::blink`. -/
def blink (s : SPI_VFD) : SPI_VFD × Trace :=
  let s1 := { s with _displaycontrol := orAssign s._displaycontrol LCD_BLINKON }
  command s1 ((LCD_DISPLAYCONTROL ||| s1._displaycontrol) % 256)

/-- `SPI_VFD::scrollDisplayLeft`. -/
def scrollDisplayLeft (s : SPI_VFD) : SPI_VFD × Trace :=
  command s ((LCD_CURSORSHIFT ||| LCD_DISPLAYMOVE ||| LCD_MOVELEFT) % 256)

/-- `SPI_VFD::scrollDisplayRight`. -/
def scrollDisplayRight (s : SPI_VFD) : SPI_VFD × Trace :=
  command s ((LCD_CURSORSHIFT ||| LCD_DISPLAYMOVE ||| LCD_MOVERIGHT) % 256)

/-- `SPI_VFD::leftToRight`. -/
def leftToRight (s : SPI_VFD) : SPI_VFD × Trace :=
  let s1 := { s with _displaymode := orAssign s._displaymode LCD_ENTRYLEFT }
  command s1 ((LCD_ENTRYMODESET ||| s1._displaymode) % 256)

/-- `SPI_VFD::rightToLeft`. -/
def rightToLeft (s : SPI_VFD) : SPI_VFD × Trace :=
  let s1 := { s with _displaymode := andNot s._displaymode LCD_ENTRYLEFT }
  command s1 ((LCD_ENTRYMODESET ||| s1._displaymode) % 256)

/-- `SPI_VFD::autoscroll`. -/
def autoscroll (s : SPI_VFD) : SPI_VFD × Trace :=
  let s1 := { s with _displaymode := orAssign s._displaymode LCD_ENTRYSHIFTINCREMENT }
  command s1 ((LCD_ENTRYMODESET ||| s1._displaymode) % 256)

/-- `SPI_VFD::noAutoscroll`. -/
def noAutoscroll (s : SPI_VFD) : SPI_VFD × Trace :=
  let s1 := { s with _displaymode := andNot s._displaymode LCD_ENTRYSHIFTINCREMENT }
  command s1 ((LCD_ENTRYMODESET ||| s1._displaymode) % 256)

/-- The loop of `createChar`: `n` more iterations, the next one at index `i`.
`none` when `charmap[i]` is read past the end of the array. -/
def createChar_loop (s : SPI_VFD) (charmap : List Nat) : Nat → Nat → Option (SPI_VFD × Trace)
  | _, 0 => some (s, [])
  | i, n + 1 =>
    match charmap[i]? with
    | none => none
    | some b =>
      match createChar_loop (write s b).1 charmap (i + 1) n with
      | none => none
      | some r => some (r.1, (write s b).2 ++ r.2)

/-- `SPI_VFD::createChar`. -/
def createChar (s : SPI_VFD) (location : Nat) (charmap : List Nat) :
    Option (SPI_VFD × Trace) :=
  let location := location &&& 0x7
  let r := command s ((LCD_SETCGRAMADDR ||| (location <<< 3)) % 256)
  match createChar_loop r.1 charmap 0 8 with
  | none => none
  | some r2 => some (r2.1, r.2 ++ r2.2)

/-- `SPI_VFD::begin`. -/
def begin (k : Consts) (s : SPI_VFD) (cols lines dotsize : Nat) : SPI_VFD × Trace :=
  let s1 := if lines > 1 then
      { s with _displayfunction := orAssign s._displayfunction LCD_2LINE } else s
  let s2 := { s1 with _numlines := lines, _currline := 0 }
  let s3 := if dotsize ≠ 0 ∧ lines = 1 then
      { s2 with _displayfunction := orAssign s2._displayfunction k.LCD_5x10DOTS } else s2
  let r1 := clear s3
  let r2 := home r1.1
  let r3 := command r2.1 ((LCD_FUNCTIONSET ||| r2.1._displayfunction) % 256)
  let s4 := { r3.1 with _displaymode := (LCD_ENTRYLEFT ||| LCD_ENTRYSHIFTDECREMENT) % 256 }
  let r4 := command s4 ((LCD_ENTRYMODESET ||| s4._displaymode) % 256)
  let r5 := command r4.1 LCD_SETDDRAMADDR
  let s5 := { r5.1 with
      _displaycontrol := (LCD_DISPLAYON ||| LCD_CURSOROFF ||| LCD_BLINKOFF) % 256 }
  let r6 := display s5
  let r7 := command r6.1 LCD_SETDDRAMADDR
  (r7.1, r1.2 ++ r2.2 ++ r3.2 ++ r4.2 ++ r5.2 ++ r6.2 ++ r7.2)

/-- `SPI_VFD::init`, run on an object `s` whose members hold whatever they held
before.  The call `begin(20, 2)` takes the default third argument of the header,
`VFD_BRIGHTNESS100`. -/
def init (k : Consts) (s : SPI_VFD) (data clock chipselect : Nat) : SPI_VFD × Trace :=
  let s1 := { s with _clock := clock, _data := data, _chipselect := chipselect }
  let t1 := [Event.pinMode s1._clock, Event.pinMode s1._data]
  let t2 := if s1._chipselect ≠ 0 then [Event.pinMode s1._chipselect] else []
  let s2 := { s1 with _displayfunction := k.LCD_8BITMODE % 256 }
  let r := begin k s2 20 2 VFD_BRIGHTNESS100
  (r.1, t1 ++ t2 ++ r.2)

/-- The constructor `SPI_VFD(data, clock, chipselect)`. -/
def construct3 (k : Consts) (s : SPI_VFD) (data clock chipselect : Nat) : SPI_VFD × Trace :=
  init k s data clock chipselect

/-- The constructor `SPI_VFD(data, clock)`. -/
def construct2 (k : Consts) (s : SPI_VFD) (data clock : Nat) : SPI_VFD × Trace :=
  init k s data clock 0

end SPI_VFD

/-! ## The wire protocol in the words of the specification

These definitions restate sections 4.1, 4.2 and 6 of the specification; they are
what the functions translated from the source are compared with. -/

namespace Spec

/-- The level that shows a bit value on the data line: HIGH for 1, LOW for 0. -/
def levelOf (bit : Bool) : Level := if bit then Level.HIGH else Level.LOW

/-- Spec 4.1, Bit Serializer: drive the clock line high, then for bit index 7 down
to 0: drive clock low, set the data line to the value of the bit, drive clock high. -/
def serialize (clockLine dataLine b : Nat) : Trace :=
  Event.digitalWrite clockLine Level.HIGH ::
    [7, 6, 5, 4, 3, 2, 1, 0].flatMap (fun i =>
      [Event.digitalWrite clockLine Level.LOW,
       Event.digitalWrite dataLine (levelOf (b.testBit i)),
       Event.digitalWrite clockLine Level.HIGH])

/-- The bits of a byte as data-line levels, most significant bit first. -/
def msbFirst (b : Nat) : List Level :=
  [7, 6, 5, 4, 3, 2, 1, 0].map (fun i => levelOf (b.testBit i))

/-- Chip-select assertion (active low), if a chip-select line is configured. -/
def assertSelect (s : SPI_VFD) : Trace :=
  if s._chipselect ≠ 0 then [Event.digitalWrite s._chipselect Level.LOW] else []

/-- Chip-select deassertion, if a chip-select line is configured. -/
def deassertSelect (s : SPI_VFD) : Trace :=
  if s._chipselect ≠ 0 then [Event.digitalWrite s._chipselect Level.HIGH] else []

/-- Spec 4.2, Frame Transmitter: if a chip-select line is configured, assert it;
serialize the frame-type marker; serialize the payload byte; if chip-select is
configured, deassert it. -/
def frameTrace (s : SPI_VFD) (marker payload : Nat) : Trace :=
  assertSelect s ++ serialize s._clock s._data marker ++
    serialize s._clock s._data payload ++ deassertSelect s

/-- A two-byte transmission: a command frame or a data frame, with its payload. -/
inductive Frame
  | command (payload : Nat)
  | data (payload : Nat)
deriving DecidableEq

/-- Spec 6: frame markers, `0xF8` = command frame, `0xFA` = data frame. -/
def Frame.marker : Frame → Nat
  | Frame.command _ => 0xF8
  | Frame.data _ => 0xFA

/-- The payload byte of a frame. -/
def Frame.payload : Frame → Nat
  | Frame.command p => p
  | Frame.data p => p

/-- The pin writes that transmit a sequence of frames, one after the other. -/
def wire (s : SPI_VFD) (fs : List Frame) : Trace :=
  fs.flatMap (fun f => frameTrace s f.marker f.payload)

/-- The levels of the clock line and of the data line. -/
structure Lines where
  clock : Level
  data : Level
deriving DecidableEq

/-- The lines after one call into the Arduino core: a `digitalWrite` to the clock
pin or to the data pin sets that line, every other call leaves both as they were. -/
def Lines.after (s : SPI_VFD) (w : Lines) : Event → Lines
  | Event.digitalWrite pin val =>
    { clock := if pin = s._clock then val else w.clock,
      data := if pin = s._data then val else w.data }
  | _ => w

/-- The low-to-high transitions of the clock line along a trace, starting from the
lines `w`: for each transition, in order, the level the data line holds at it. -/
def risingEdges (s : SPI_VFD) : Lines → Trace → List Level
  | _, [] => []
  | w, e :: t =>
    (if w.clock = Level.LOW ∧ (w.after s e).clock = Level.HIGH then [(w.after s e).data]
     else []) ++ risingEdges s (w.after s e) t

end Spec

/-! ## Sequences of display-control calls -/

namespace SPI_VFD

/-- The six display-control member functions, named so that a sequence of calls
can be written down. -/
inductive CtlCall
  | display
  | noDisplay
  | cursor
  | noCursor
  | blink
  | noBlink
deriving DecidableEq

/-- One display-control call: the member function the name stands for. -/
def callCtl (s : SPI_VFD) : CtlCall → SPI_VFD × Trace
  | CtlCall.display => display s
  | CtlCall.noDisplay => noDisplay s
  | CtlCall.cursor => cursor s
  | CtlCall.noCursor => noCursor s
  | CtlCall.blink => blink s
  | CtlCall.noBlink => noBlink s

/-- The object after a sequence of display-control calls, made one after the other. -/
def runCtl (s : SPI_VFD) (calls : List CtlCall) : SPI_VFD :=
  calls.foldl (fun st c => (callCtl st c).1) s

/-- A driver object to evaluate on: clock on pin 13, data on pin 11, chip-select on
pin 10, all registers zero, two lines. -/
def sample : SPI_VFD :=
  { _clock := 13, _data := 11, _chipselect := 10, _displayfunction := 0,
    _displaycontrol := 0, _displaymode := 0, _initialized := 0, _numlines := 2,
    _currline := 0 }

/-- The same wiring without a chip-select line. -/
def sampleNoSelect : SPI_VFD := { sample with _chipselect := 0 }

/-- Values for the two constants the header does not declare, to evaluate on. -/
def sampleConsts : Consts := { LCD_8BITMODE := 0x10, LCD_5x10DOTS := 0x04 }

end SPI_VFD

namespace Spec

open SPI_VFD

/-- The setting of one control bit after a sequence of calls: what the most recent
call among `setter` and `clearer` made it, or `dflt` when the sequence has neither. -/
def lastSetting (setter clearer : CtlCall) (dflt : Bool) (calls : List CtlCall) : Bool :=
  match calls.reverse.find? (fun c => decide (c = setter ∨ c = clearer)) with
  | some c => decide (c = setter)
  | none => dflt

/-- The control flags after `begin` and a sequence of calls: display (0x04, on by
default), cursor (0x02, off by default), blink (0x01, off by default). -/
def controlFlags (calls : List CtlCall) : Nat :=
  (if lastSetting CtlCall.display CtlCall.noDisplay true calls then 0x04 else 0) |||
  (if lastSetting CtlCall.cursor CtlCall.noCursor false calls then 0x02 else 0) |||
  (if lastSetting CtlCall.blink CtlCall.noBlink false calls then 0x01 else 0)

/-- The levels written to the chip-select pin along a trace, in order. -/
def selectWrites (s : SPI_VFD) (t : Trace) : List Level :=
  t.filterMap (fun e =>
    match e with
    | Event.digitalWrite pin val => if pin = s._chipselect then some val else none
    | _ => none)

end Spec

/-! ## Sequences of public operations -/

namespace SPI_VFD

/-- The public member functions with their arguments, named so that a sequence of
calls can be written down. -/
inductive Op
  | begin (cols lines dotsize : Nat)
  | clear
  | home
  | setCursor (col row : Nat)
  | noDisplay
  | display
  | noCursor
  | cursor
  | noBlink
  | blink
  | scrollDisplayLeft
  | scrollDisplayRight
  | leftToRight
  | rightToLeft
  | autoscroll
  | noAutoscroll
  | createChar (location : Nat) (charmap : List Nat)
  | write (value : Nat)
  | command (value : Nat)
deriving DecidableEq

/-- One public call: the member function the name stands for.  `none` when the call
reads an array past its end. -/
def call (k : Consts) (s : SPI_VFD) : Op → Option (SPI_VFD × Trace)
  | Op.begin cols lines dotsize => some (begin k s cols lines dotsize)
  | Op.clear => some (clear s)
  | Op.home => some (home s)
  | Op.setCursor col row => setCursor s col row
  | Op.noDisplay => some (noDisplay s)
  | Op.display => some (display s)
  | Op.noCursor => some (noCursor s)
  | Op.cursor => some (cursor s)
  | Op.noBlink => some (noBlink s)
  | Op.blink => some (blink s)
  | Op.scrollDisplayLeft => some (scrollDisplayLeft s)
  | Op.scrollDisplayRight => some (scrollDisplayRight s)
  | Op.leftToRight => some (leftToRight s)
  | Op.rightToLeft => some (rightToLeft s)
  | Op.autoscroll => some (autoscroll s)
  | Op.noAutoscroll => some (noAutoscroll s)
  | Op.createChar location charmap => createChar s location charmap
  | Op.write value => some (write s value)
  | Op.command value => some (command s value)

/-- The object after a sequence of public calls, made one after the other. -/
def callAll (k : Consts) (s : SPI_VFD) : List Op → Option SPI_VFD
  | [] => some s
  | op :: ops =>
    match call k s op with
    | none => none
    | some r => callAll k r.1 ops

/-- The four entry-mode member functions, each with the bit of `_displaymode` it
owns and the value it gives that bit. -/
def entryCalls : List ((SPI_VFD → SPI_VFD × Trace) × Nat × Bool) :=
  [(leftToRight, 1, true), (rightToLeft, 1, false),
   (autoscroll, 0, true), (noAutoscroll, 0, false)]

end SPI_VFD

namespace Spec

open SPI_VFD

/-- The `digitalWrite` calls of a trace, in order: what reaches the wires. -/
def pinWrites (t : Trace) : Trace :=
  t.filter (fun e =>
    match e with
    | Event.digitalWrite _ _ => true
    | _ => false)

/-- The levels of the clock and data lines after a trace, starting from `w`. -/
def linesAfter (s : SPI_VFD) (w : Lines) (t : Trace) : Lines :=
  t.foldl (fun x e => x.after s e) w

end Spec

/-! ## Auxiliary facts -/

namespace SPI_VFD

open Spec

theorem toU8_natCast (n : Nat) : toU8 (n : Int) = n % 256 := by
  unfold toU8; omega

/-- The function `andNot` is `x & ~m` computed on (unbounded) two's-complement
integers and converted to `uint8_t`. -/
theorem andNot_int (x m : Nat) :
    andNot x m = toU8 (Int.land (x : Int) (Int.lnot (m : Int))) := by
  have e : toU8 (Int.land (x : Int) (Int.lnot (m : Int))) = Nat.ldiff x m % 256 :=
    toU8_natCast _
  rw [e]
  unfold andNot
  apply Nat.eq_of_testBit_eq
  intro i
  have e256 : (256 : Nat) = 2 ^ 8 := by norm_num
  have e255 : (0xFF : Nat) = 2 ^ 8 - 1 := by norm_num
  rw [e256, Nat.testBit_mod_two_pow, Nat.testBit_ldiff, Nat.testBit_and, Nat.testBit_xor,
    Nat.testBit_mod_two_pow, e255, Nat.testBit_two_pow_sub_one]
  cases x.testBit i <;> cases m.testBit i <;> by_cases h : i < 8 <;> simp [h]

theorem and_BV_ne_zero (c i : Nat) : (c &&& _BV i ≠ 0) ↔ c.testBit i = true := by
  unfold _BV
  rw [Nat.one_shiftLeft, Nat.and_two_pow]
  cases c.testBit i <;> simp

theorem send_loop_step (s : SPI_VFD) (c i : Nat) :
    send_loop s c (i + 1) =
      [Event.digitalWrite s._clock Level.LOW,
       Event.digitalWrite s._data (levelOf (c.testBit i)),
       Event.digitalWrite s._clock Level.HIGH] ++ send_loop s c i := by
  show [_, _, _] ++ _ = _
  congr 2
  by_cases h : c.testBit i = true
  · simp [and_BV_ne_zero, h, levelOf]
  · have h2 : ¬ (c &&& _BV i ≠ 0) := fun hh => h ((and_BV_ne_zero c i).1 hh)
    simp only [Bool.not_eq_true] at h
    rw [if_neg h2]; simp [h, levelOf]

theorem send_eq_serialize (s : SPI_VFD) (c : Nat) :
    send s c = serialize s._clock s._data c := by
  unfold send
  iterate 8 rw [send_loop_step]
  rfl

theorem serialize_eq (c d b : Nat) :
    serialize c d b =
      [Event.digitalWrite c Level.HIGH,
       Event.digitalWrite c Level.LOW, Event.digitalWrite d (levelOf (b.testBit 7)),
       Event.digitalWrite c Level.HIGH,
       Event.digitalWrite c Level.LOW, Event.digitalWrite d (levelOf (b.testBit 6)),
       Event.digitalWrite c Level.HIGH,
       Event.digitalWrite c Level.LOW, Event.digitalWrite d (levelOf (b.testBit 5)),
       Event.digitalWrite c Level.HIGH,
       Event.digitalWrite c Level.LOW, Event.digitalWrite d (levelOf (b.testBit 4)),
       Event.digitalWrite c Level.HIGH,
       Event.digitalWrite c Level.LOW, Event.digitalWrite d (levelOf (b.testBit 3)),
       Event.digitalWrite c Level.HIGH,
       Event.digitalWrite c Level.LOW, Event.digitalWrite d (levelOf (b.testBit 2)),
       Event.digitalWrite c Level.HIGH,
       Event.digitalWrite c Level.LOW, Event.digitalWrite d (levelOf (b.testBit 1)),
       Event.digitalWrite c Level.HIGH,
       Event.digitalWrite c Level.LOW, Event.digitalWrite d (levelOf (b.testBit 0)),
       Event.digitalWrite c Level.HIGH] := rfl

theorem levelOf_inj {a b : Bool} (h : levelOf a = levelOf b) : a = b := by
  cases a <;> cases b <;> simp [levelOf] at h ⊢

theorem serialize_length (c d b : Nat) : (serialize c d b).length = 25 := by
  rw [serialize_eq]; rfl

theorem serialize_inj {c d b1 b2 : Nat} (h : serialize c d b1 = serialize c d b2) :
    b1 % 256 = b2 % 256 := by
  rw [serialize_eq, serialize_eq] at h
  simp only [List.cons.injEq, Event.digitalWrite.injEq, true_and, and_true] at h
  obtain ⟨h7, h6, h5, h4, h3, h2, h1, h0⟩ := h
  apply Nat.eq_of_testBit_eq
  intro i
  have e : (256 : Nat) = 2 ^ 8 := by norm_num
  rw [e, Nat.testBit_mod_two_pow, Nat.testBit_mod_two_pow]
  by_cases hi : i < 8
  · interval_cases i
    · simp [levelOf_inj h0]
    · simp [levelOf_inj h1]
    · simp [levelOf_inj h2]
    · simp [levelOf_inj h3]
    · simp [levelOf_inj h4]
    · simp [levelOf_inj h5]
    · simp [levelOf_inj h6]
    · simp [levelOf_inj h7]
  · simp [hi]

theorem assertSelect_length (s : SPI_VFD) :
    (assertSelect s).length = (deassertSelect s).length := by
  unfold assertSelect deassertSelect
  split <;> rfl

theorem frameTrace_length (s : SPI_VFD) (m p : Nat) :
    (frameTrace s m p).length = 50 + 2 * (assertSelect s).length := by
  unfold frameTrace
  simp only [List.length_append, serialize_length, ← assertSelect_length]
  omega

theorem frameTrace_inj {s : SPI_VFD} {m1 p1 m2 p2 : Nat}
    (h : frameTrace s m1 p1 = frameTrace s m2 p2) :
    m1 % 256 = m2 % 256 ∧ p1 % 256 = p2 % 256 := by
  unfold frameTrace at h
  simp only [List.append_assoc] at h
  have h1 := List.append_cancel_left h
  have h2 := List.append_inj h1 (by simp [serialize_length])
  have h3 := List.append_inj h2.2 (by simp [serialize_length])
  exact ⟨serialize_inj h2.1, serialize_inj h3.1⟩

theorem frame_eq_of_trace {s : SPI_VFD} {f g : Frame} (hf : f.payload < 256)
    (hg : g.payload < 256)
    (h : frameTrace s f.marker f.payload = frameTrace s g.marker g.payload) : f = g := by
  have h1 := frameTrace_inj h
  cases f <;> cases g <;> simp [Frame.marker, Frame.payload] at h1 hf hg ⊢ <;> omega

theorem wire_cons (s : SPI_VFD) (f : Frame) (fs : List Frame) :
    wire s (f :: fs) = frameTrace s f.marker f.payload ++ wire s fs := rfl

/-- A trace is the transmission of at most one sequence of frames with byte
payloads: the frames can be read back from the pin writes. -/
theorem wire_inj (s : SPI_VFD) :
    ∀ (fs gs : List Frame), (∀ f ∈ fs, f.payload < 256) → (∀ g ∈ gs, g.payload < 256) →
      wire s fs = wire s gs → fs = gs := by
  intro fs
  induction fs with
  | nil =>
    intro gs _ _ h
    cases gs with
    | nil => rfl
    | cons g gs =>
      have hl := congrArg List.length h
      rw [wire_cons, List.length_append, frameTrace_length] at hl
      have h0 : (wire s []).length = 0 := rfl
      omega
  | cons f fs ih =>
    intro gs hf hg h
    cases gs with
    | nil =>
      have hl := congrArg List.length h
      rw [wire_cons, List.length_append, frameTrace_length] at hl
      have h0 : (wire s []).length = 0 := rfl
      omega
    | cons g gs =>
      rw [wire_cons, wire_cons] at h
      have h1 := List.append_inj h (by rw [frameTrace_length, frameTrace_length])
      have e1 : f = g := frame_eq_of_trace (hf f (List.mem_cons_self _ _))
        (hg g (List.mem_cons_self _ _)) h1.1
      have e2 : fs = gs := ih gs (fun x hx => hf x (List.mem_cons_of_mem _ hx))
        (fun x hx => hg x (List.mem_cons_of_mem _ hx)) h1.2
      rw [e1, e2]

theorem wire_single (s : SPI_VFD) (f : Frame) :
    wire s [f] = frameTrace s f.marker f.payload := by
  rw [wire_cons]; exact List.append_nil _

theorem command_eq (s : SPI_VFD) (v : Nat) :
    command s v = (s, wire s [Frame.command v]) := by
  simp [command, wire, frameTrace, send_eq_serialize, assertSelect, deassertSelect,
    Frame.marker, Frame.payload]

theorem write_eq (s : SPI_VFD) (v : Nat) :
    write s v = (s, wire s [Frame.data v]) := by
  simp [write, wire, frameTrace, send_eq_serialize, assertSelect, deassertSelect,
    Frame.marker, Frame.payload]

/-! ## The bit serializer -/

/-- C1: for every byte `b`, `send(b)` makes exactly the pin writes of the bit
serializer of the specification: clock HIGH, then for bit index 7 down to 0 clock
LOW, data HIGH if the bit of `b` is 1 and LOW otherwise, clock HIGH; 25 writes in
all, most significant bit first. -/
theorem send_emits (s : SPI_VFD) (b : Nat) :
    send s b = serialize s._clock s._data b ∧
    send s b =
      Event.digitalWrite s._clock Level.HIGH ::
        [7, 6, 5, 4, 3, 2, 1, 0].flatMap (fun i =>
          [Event.digitalWrite s._clock Level.LOW,
           Event.digitalWrite s._data (if b.testBit i then Level.HIGH else Level.LOW),
           Event.digitalWrite s._clock Level.HIGH]) ∧
    (send s b).length = 25 := by
  refine ⟨send_eq_serialize s b, send_eq_serialize s b, ?_⟩
  rw [send_eq_serialize, serialize_length]

/-- C2, as stated, fails: with the clock line LOW before the call, the leading
clock-HIGH write of `send` is itself a low-to-high transition, so serializing 0xFF
gives nine transitions, the first with the data line still at its old level. -/
theorem send_rising_edges_low_clock :
    risingEdges sample { clock := Level.LOW, data := Level.LOW } (send sample 0xFF) ≠
      msbFirst 0xFF ∧
    (risingEdges sample { clock := Level.LOW, data := Level.LOW } (send sample 0xFF)).length
      = 9 := by
  decide

/-- C2, amended: for every byte `b`, with clock and data on different pins, when the
clock line is HIGH before the call, `send` makes exactly 8 low-to-high transitions
of the clock line, and the data line holds bit 7 of `b` at the first, bit `7-k` at
the `k`-th, bit 0 at the last; when the clock line is LOW before the call, the leading
clock-HIGH write is one more transition, ahead of those eight, at which the data
line holds the level it had before the call. -/
theorem send_rising_edges (s : SPI_VFD) (b : Nat) (w : Lines) (hpins : s._clock ≠ s._data) :
    (w.clock = Level.HIGH →
      risingEdges s w (send s b) = msbFirst b ∧
      (risingEdges s w (send s b)).length = 8 ∧
      ∀ k, k < 8 → (risingEdges s w (send s b))[k]? = some (levelOf (b.testBit (7 - k)))) ∧
    (w.clock = Level.LOW → risingEdges s w (send s b) = w.data :: msbFirst b) := by
  have h2 : s._data ≠ s._clock := fun h => hpins h.symm
  rw [send_eq_serialize, serialize_eq]
  constructor
  · intro hw
    have e : risingEdges s w (serialize s._clock s._data b) = msbFirst b := by
      rw [serialize_eq]
      simp [risingEdges, Lines.after, hpins, h2, hw, msbFirst]
    rw [← serialize_eq, e]
    refine ⟨rfl, rfl, ?_⟩
    intro k hk
    interval_cases k <;> rfl
  · intro hw
    simp [risingEdges, Lines.after, hpins, h2, hw, msbFirst]

/-- Witness of `send_rising_edges`: the byte 0xA5 on the sample wiring, clock HIGH. -/
theorem send_rising_edges_witness :
    risingEdges sample { clock := Level.HIGH, data := Level.LOW } (send sample 0xA5) =
      [Level.HIGH, Level.LOW, Level.HIGH, Level.LOW, Level.LOW, Level.HIGH, Level.LOW,
       Level.HIGH] :=
  ((send_rising_edges sample 0xA5 { clock := Level.HIGH, data := Level.LOW }
    (by decide)).1 rfl).1

/-! ## The frame transmitter -/

theorem begin_pins (k : Consts) (s : SPI_VFD) (cols lines dotsize : Nat) :
    (begin k s cols lines dotsize).1._clock = s._clock ∧
    (begin k s cols lines dotsize).1._data = s._data ∧
    (begin k s cols lines dotsize).1._chipselect = s._chipselect := by
  unfold begin
  simp only [command_eq, clear, home, display]
  split <;> split <;> simp

/-- C3: for every payload byte `v` and every object, `command(v)` serializes exactly
two bytes, 0xF8 then `v`, and `write(v)` exactly two bytes, 0xFA then `v`; the pin
writes can be read back as no other frames; neither changes a field; and `write(0x41)`
after `begin` transmits one data frame (0xFA, 0x41) and no command frame. -/
theorem command_write_frames (s : SPI_VFD) (v : Nat) (hv : v < 256) :
    (command s v).2 = assertSelect s ++ send s 0xF8 ++ send s v ++ deassertSelect s ∧
    (write s v).2 = assertSelect s ++ send s 0xFA ++ send s v ++ deassertSelect s ∧
    (command s v).2 = wire s [Frame.command v] ∧
    (write s v).2 = wire s [Frame.data v] ∧
    (∀ fs : List Frame, (∀ f ∈ fs, f.payload < 256) → (command s v).2 = wire s fs →
      fs = [Frame.command v]) ∧
    (∀ fs : List Frame, (∀ f ∈ fs, f.payload < 256) → (write s v).2 = wire s fs →
      fs = [Frame.data v]) ∧
    (command s v).1 = s ∧ (write s v).1 = s ∧
    (∀ (k : Consts) (s0 : SPI_VFD) (cols lines dotsize : Nat) (fs : List Frame),
      (write (begin k s0 cols lines dotsize).1 0x41).2 =
          frameTrace (begin k s0 cols lines dotsize).1 0xFA 0x41 ∧
      ((∀ f ∈ fs, f.payload < 256) →
        (write (begin k s0 cols lines dotsize).1 0x41).2 =
          wire (begin k s0 cols lines dotsize).1 fs → fs = [Frame.data 0x41])) := by
  have hc : ∀ fs : List Frame, (∀ f ∈ fs, f.payload < 256) → (command s v).2 = wire s fs →
      fs = [Frame.command v] := by
    intro fs hfs h
    rw [command_eq] at h
    exact (wire_inj s _ _ (by simpa [Frame.payload] using hv) hfs h).symm
  have hw : ∀ (s1 : SPI_VFD) (x : Nat), x < 256 → ∀ fs : List Frame,
      (∀ f ∈ fs, f.payload < 256) → (write s1 x).2 = wire s1 fs → fs = [Frame.data x] := by
    intro s1 x hx fs hfs h
    rw [write_eq] at h
    exact (wire_inj s1 _ _ (by simpa [Frame.payload] using hx) hfs h).symm
  refine ⟨?_, ?_, ?_, ?_, hc, hw s v hv, rfl, rfl, ?_⟩
  · simp [command, assertSelect, deassertSelect]
  · simp [write, assertSelect, deassertSelect]
  · rw [command_eq]
  · rw [write_eq]
  · intro k s0 cols lines dotsize fs
    refine ⟨?_, hw _ 0x41 (by norm_num) fs⟩
    rw [write_eq, wire_single]; rfl

/-- Witness of `command_write_frames`: the payload 0xFF on the sample wiring. -/
theorem command_write_frames_witness :
    (command sample 0xFF).2 = wire sample [Frame.command 0xFF] ∧
    (write sample 0xFF).2 = wire sample [Frame.data 0xFF] :=
  ⟨(command_write_frames sample 0xFF (by decide)).2.2.1,
   (command_write_frames sample 0xFF (by decide)).2.2.2.1⟩

theorem selectWrites_append (s : SPI_VFD) (t1 t2 : Trace) :
    selectWrites s (t1 ++ t2) = selectWrites s t1 ++ selectWrites s t2 := by
  simp [selectWrites, List.filterMap_append]

theorem selectWrites_serialize (s : SPI_VFD) (b : Nat) (h1 : s._chipselect ≠ s._clock)
    (h2 : s._chipselect ≠ s._data) :
    selectWrites s (serialize s._clock s._data b) = [] := by
  have h3 : s._clock ≠ s._chipselect := fun h => h1 h.symm
  have h4 : s._data ≠ s._chipselect := fun h => h2 h.symm
  rw [serialize_eq]
  simp [selectWrites, List.filterMap_cons, h3, h4]

theorem mem_serialize {c d b : Nat} {e : Event} (h : e ∈ serialize c d b) :
    ∃ val, e = Event.digitalWrite c val ∨ e = Event.digitalWrite d val := by
  rw [serialize_eq] at h
  simp only [List.mem_cons, List.mem_singleton, List.not_mem_nil, or_false] at h
  rcases h with h | h | h | h | h | h | h | h | h | h | h | h | h | h | h | h | h | h | h |
    h | h | h | h | h | h <;> exact ⟨_, by first | exact Or.inl h | exact Or.inr h⟩

/-- C4: for every payload byte, when the chip-select pin is configured (non-zero)
the trace of `command(v)` and of `write(v)` is chip-select LOW, the serialization of
the frame marker, the serialization of `v`, chip-select HIGH, so the chip-select line
(on a pin of its own) is written exactly twice, LOW then HIGH, and not between the
two bytes; when the chip-select pin is zero the trace is the two serializations
alone, every write going to the clock or the data pin. -/
theorem chip_select_brackets (s : SPI_VFD) (v : Nat) :
    (s._chipselect ≠ 0 →
      (command s v).2 =
        [Event.digitalWrite s._chipselect Level.LOW] ++ serialize s._clock s._data 0xF8 ++
          serialize s._clock s._data v ++ [Event.digitalWrite s._chipselect Level.HIGH] ∧
      (write s v).2 =
        [Event.digitalWrite s._chipselect Level.LOW] ++ serialize s._clock s._data 0xFA ++
          serialize s._clock s._data v ++ [Event.digitalWrite s._chipselect Level.HIGH] ∧
      (s._chipselect ≠ s._clock → s._chipselect ≠ s._data →
        selectWrites s (command s v).2 = [Level.LOW, Level.HIGH] ∧
        selectWrites s (write s v).2 = [Level.LOW, Level.HIGH] ∧
        selectWrites s (serialize s._clock s._data 0xF8 ++ serialize s._clock s._data v) = [] ∧
        selectWrites s (serialize s._clock s._data 0xFA ++ serialize s._clock s._data v) = [])) ∧
    (s._chipselect = 0 →
      (command s v).2 = serialize s._clock s._data 0xF8 ++ serialize s._clock s._data v ∧
      (write s v).2 = serialize s._clock s._data 0xFA ++ serialize s._clock s._data v ∧
      (∀ e ∈ (command s v).2,
        ∃ val, e = Event.digitalWrite s._clock val ∨ e = Event.digitalWrite s._data val) ∧
      (∀ e ∈ (write s v).2,
        ∃ val, e = Event.digitalWrite s._clock val ∨ e = Event.digitalWrite s._data val)) := by
  constructor
  · intro hcs
    have ec : (command s v).2 =
        [Event.digitalWrite s._chipselect Level.LOW] ++ serialize s._clock s._data 0xF8 ++
          serialize s._clock s._data v ++ [Event.digitalWrite s._chipselect Level.HIGH] := by
      simp [command, send_eq_serialize, hcs]
    have ew : (write s v).2 =
        [Event.digitalWrite s._chipselect Level.LOW] ++ serialize s._clock s._data 0xFA ++
          serialize s._clock s._data v ++ [Event.digitalWrite s._chipselect Level.HIGH] := by
      simp [write, send_eq_serialize, hcs]
    refine ⟨ec, ew, ?_⟩
    intro h1 h2
    rw [ec, ew]
    simp only [selectWrites_append, selectWrites_serialize s _ h1 h2]
    simp [selectWrites]
  · intro hcs
    have ec : (command s v).2 =
        serialize s._clock s._data 0xF8 ++ serialize s._clock s._data v := by
      simp [command, send_eq_serialize, hcs]
    have ew : (write s v).2 =
        serialize s._clock s._data 0xFA ++ serialize s._clock s._data v := by
      simp [write, send_eq_serialize, hcs]
    refine ⟨ec, ew, ?_, ?_⟩
    · intro e he
      rw [ec, List.mem_append] at he
      rcases he with he | he <;> exact mem_serialize he
    · intro e he
      rw [ew, List.mem_append] at he
      rcases he with he | he <;> exact mem_serialize he

/-- Witness of `chip_select_brackets`: chip-select on pin 10, and no chip-select. -/
theorem chip_select_brackets_witness :
    selectWrites sample (command sample 0x41).2 = [Level.LOW, Level.HIGH] ∧
    (write sampleNoSelect 0x41).2 =
      serialize sampleNoSelect._clock sampleNoSelect._data 0xFA ++
        serialize sampleNoSelect._clock sampleNoSelect._data 0x41 :=
  ⟨(((chip_select_brackets sample 0x41).1 (by decide)).2.2 (by decide) (by decide)).1,
   ((chip_select_brackets sampleNoSelect 0x41).2 rfl).2.1⟩

/-! ## The display-control register -/

theorem begin_displaycontrol (k : Consts) (s : SPI_VFD) (cols lines dotsize : Nat) :
    (begin k s cols lines dotsize).1._displaycontrol = 4 := by
  unfold begin
  simp only [command_eq, clear, home, display, orAssign]
  rfl

theorem callCtl_eq (s : SPI_VFD) (c : CtlCall) :
    callCtl s c =
      ({ s with _displaycontrol := (callCtl s c).1._displaycontrol },
        wire s [Frame.command ((0x08 ||| (callCtl s c).1._displaycontrol) % 256)]) := by
  cases c <;> simp [callCtl, display, noDisplay, cursor, noCursor, blink, noBlink, command_eq,
    wire_single, frameTrace, assertSelect, deassertSelect]

theorem controlFlags_lt (calls : List CtlCall) : controlFlags calls < 8 := by
  unfold controlFlags
  split <;> split <;> split <;> decide

theorem lastSetting_snoc (a b : CtlCall) (d : Bool) (calls : List CtlCall) (c : CtlCall) :
    lastSetting a b d (calls ++ [c]) =
      if c = a then true else if c = b then decide (b = a) else lastSetting a b d calls := by
  unfold lastSetting
  rw [List.reverse_append, List.reverse_singleton, List.singleton_append, List.find?_cons]
  by_cases h1 : c = a
  · simp [h1]
  · by_cases h2 : c = b
    · subst h2; simp [h1]
    · simp [h1, h2]

theorem callCtl_controlFlags (s : SPI_VFD) (calls : List CtlCall) (c : CtlCall)
    (h : s._displaycontrol = controlFlags calls) :
    (callCtl s c).1._displaycontrol = controlFlags (calls ++ [c]) := by
  have e : (callCtl s c).1._displaycontrol =
      match c with
      | CtlCall.display => orAssign s._displaycontrol 4
      | CtlCall.noDisplay => s._displaycontrol &&& 251
      | CtlCall.cursor => orAssign s._displaycontrol 2
      | CtlCall.noCursor => s._displaycontrol &&& 253
      | CtlCall.blink => orAssign s._displaycontrol 1
      | CtlCall.noBlink => s._displaycontrol &&& 254 := by
    cases c <;> rfl
  rw [e, h]
  unfold controlFlags
  simp only [lastSetting_snoc]
  cases c <;>
    cases lastSetting CtlCall.display CtlCall.noDisplay true calls <;>
    cases lastSetting CtlCall.cursor CtlCall.noCursor false calls <;>
    cases lastSetting CtlCall.blink CtlCall.noBlink false calls <;> decide

theorem runCtl_snoc (s : SPI_VFD) (calls : List CtlCall) (c : CtlCall) :
    runCtl s (calls ++ [c]) = (callCtl (runCtl s calls) c).1 := by
  simp [runCtl, List.foldl_append]

theorem runCtl_controlFlags (s : SPI_VFD) (h : s._displaycontrol = 4) (calls : List CtlCall) :
    (runCtl s calls)._displaycontrol = controlFlags calls := by
  induction calls using List.reverseRecOn with
  | nil =>
    show s._displaycontrol = controlFlags []
    rw [h]; rfl
  | append_singleton calls c ih =>
    rw [runCtl_snoc]
    exact callCtl_controlFlags _ calls c ih

theorem controlFlags_bits (calls : List CtlCall) :
    (controlFlags calls).testBit 2 = lastSetting CtlCall.display CtlCall.noDisplay true calls ∧
    (controlFlags calls).testBit 1 = lastSetting CtlCall.cursor CtlCall.noCursor false calls ∧
    (controlFlags calls).testBit 0 = lastSetting CtlCall.blink CtlCall.noBlink false calls := by
  unfold controlFlags
  cases lastSetting CtlCall.display CtlCall.noDisplay true calls <;>
    cases lastSetting CtlCall.cursor CtlCall.noCursor false calls <;>
    cases lastSetting CtlCall.blink CtlCall.noBlink false calls <;> decide

/-- C5: after `begin`, for every finite sequence of display(), noDisplay(), cursor(),
noCursor(), blink(), noBlink() calls, each call transmits exactly one command frame
whose payload is 0x08 | controlFlags, where bits 0x04 (display), 0x02 (cursor) and
0x01 (blink) of controlFlags are what the most recent call for that bit in the
sequence so far made them (or the default of `begin`: display on, cursor off, blink
off); the call changes no other field. -/
theorem control_calls (k : Consts) (s : SPI_VFD) (cols lines dotsize : Nat)
    (calls : List CtlCall) (c : CtlCall) :
    (callCtl (runCtl (begin k s cols lines dotsize).1 calls) c).2 =
      wire (runCtl (begin k s cols lines dotsize).1 calls)
        [Frame.command (0x08 |||
          (callCtl (runCtl (begin k s cols lines dotsize).1 calls) c).1._displaycontrol)] ∧
    (callCtl (runCtl (begin k s cols lines dotsize).1 calls) c).1._displaycontrol.testBit 2 =
      lastSetting CtlCall.display CtlCall.noDisplay true (calls ++ [c]) ∧
    (callCtl (runCtl (begin k s cols lines dotsize).1 calls) c).1._displaycontrol.testBit 1 =
      lastSetting CtlCall.cursor CtlCall.noCursor false (calls ++ [c]) ∧
    (callCtl (runCtl (begin k s cols lines dotsize).1 calls) c).1._displaycontrol.testBit 0 =
      lastSetting CtlCall.blink CtlCall.noBlink false (calls ++ [c]) ∧
    (callCtl (runCtl (begin k s cols lines dotsize).1 calls) c).1 =
      { runCtl (begin k s cols lines dotsize).1 calls with
        _displaycontrol :=
          (callCtl (runCtl (begin k s cols lines dotsize).1 calls) c).1._displaycontrol } ∧
    (∀ fs : List Frame, (∀ f ∈ fs, f.payload < 256) →
      (callCtl (runCtl (begin k s cols lines dotsize).1 calls) c).2 =
        wire (runCtl (begin k s cols lines dotsize).1 calls) fs →
      fs = [Frame.command (0x08 |||
        (callCtl (runCtl (begin k s cols lines dotsize).1 calls) c).1._displaycontrol)]) := by
  have h0 := runCtl_controlFlags _ (begin_displaycontrol k s cols lines dotsize) calls
  have h1 := callCtl_controlFlags _ calls c h0
  have hb := controlFlags_bits (calls ++ [c])
  have hlt := controlFlags_lt (calls ++ [c])
  generalize runCtl (begin k s cols lines dotsize).1 calls = s1 at *
  have hp : (0x08 ||| controlFlags (calls ++ [c])) < 256 := by
    have : controlFlags (calls ++ [c]) < 2 ^ 8 := by omega
    exact Nat.or_lt_two_pow (by norm_num) this
  have ht : (callCtl s1 c).2 =
      wire s1 [Frame.command (0x08 ||| (callCtl s1 c).1._displaycontrol)] := by
    conv_lhs => rw [callCtl_eq]
    rw [h1, Nat.mod_eq_of_lt hp]
  refine ⟨ht, ?_, ?_, ?_, ?_, ?_⟩
  · rw [h1]; exact hb.1
  · rw [h1]; exact hb.2.1
  · rw [h1]; exact hb.2.2
  · conv_lhs => rw [callCtl_eq]
  · intro fs hfs h
    rw [ht] at h
    refine (wire_inj s1 _ _ ?_ hfs h).symm
    intro f hf
    rw [List.mem_singleton] at hf
    rw [hf, h1]
    exact hp

/-- Witness of `control_calls`: after `begin(20, 2)`, cursor(), blink(), the call
noCursor() transmits the command payload 0x0D. -/
theorem control_calls_witness :
    (callCtl (runCtl (begin sampleConsts sample 20 2 0).1 [CtlCall.cursor, CtlCall.blink])
      CtlCall.noCursor).2 = wire sample [Frame.command 0x0D] :=
  (control_calls sampleConsts sample 20 2 0 [CtlCall.cursor, CtlCall.blink] CtlCall.noCursor).1

/-! ## Cursor addressing -/

theorem begin_numlines (k : Consts) (s : SPI_VFD) (cols lines dotsize : Nat) :
    (begin k s cols lines dotsize).1._numlines = lines := by
  unfold begin
  simp only [command_eq, clear, home, display]
  split <;> split <;> rfl

/-- Above the boundary the row is replaced: for `row > _numlines`, with at least one
line, `setCursor` addresses row `_numlines - 1`. -/
theorem setCursor_row_above (s : SPI_VFD) (row : Nat) (h1 : 1 ≤ s._numlines)
    (h8 : s._numlines < 256) (h : s._numlines < row) :
    setCursor_row s row = s._numlines - 1 := by
  unfold setCursor_row toU8
  rw [if_pos h]
  omega

/-- Off the boundary the index stays inside the table: for `row ≠ _numlines`, with
between 1 and 4 lines, the row `setCursor` uses is below `_numlines`. -/
theorem setCursor_row_lt (s : SPI_VFD) (row : Nat) (h1 : 1 ≤ s._numlines)
    (h4 : s._numlines ≤ 4) (hne : row ≠ s._numlines) : setCursor_row s row < s._numlines := by
  by_cases h : s._numlines < row
  · rw [setCursor_row_above s row h1 (by omega) h]
    omega
  · unfold setCursor_row
    rw [if_neg h]
    omega

/-- C6, the code at the boundary row: after `begin(20, 2)` the call `setCursor(0, 2)`
leaves the row at 2 (the test is `row > _numlines`) and transmits the command payload
0x94 = 0x80 | (0 + 0x14), the address of row 2, where clamping to `lineCount - 1`
would transmit 0xC0 = 0x80 | (0 + 0x40). -/
theorem setCursor_boundary_row_not_clamped :
    setCursor_row (begin sampleConsts sample 20 2 0).1 2 = 2 ∧
    setCursor (begin sampleConsts sample 20 2 0).1 0 2 =
      some ((begin sampleConsts sample 20 2 0).1, wire sample [Frame.command 0x94]) ∧
    wire sample [Frame.command 0x94] ≠ wire sample [Frame.command (0x80 ||| (0 + 0x40))] := by
  refine ⟨by decide, rfl, ?_⟩
  intro h
  have h1 := wire_inj sample _ _ (by simp [Frame.payload]) (by simp [Frame.payload]) h
  simp at h1

/-- C7, the code at the boundary row: after `begin(20, 4)` the call `setCursor(0, 4)`
indexes the 4-entry table `row_offsets` at 4, past its end. -/
theorem setCursor_boundary_row_out_of_bounds :
    (begin sampleConsts sample 20 4 0).1._numlines = 4 ∧
    setCursor_row (begin sampleConsts sample 20 4 0).1 4 = 4 ∧
    row_offsets.length = 4 ∧
    row_offsets[setCursor_row (begin sampleConsts sample 20 4 0).1 4]? = none ∧
    setCursor (begin sampleConsts sample 20 4 0).1 0 4 = none := by
  refine ⟨by decide, by decide, rfl, by decide, by decide⟩

/-- C8: for every col and every row with row < lineCount <= 4, `setCursor(col, row)`
transmits exactly one command frame, whose payload is the low 8 bits of
0x80 | (col + rowOffset[row]) with rowOffset = {0x00, 0x40, 0x14, 0x54}; it emits no
data frame and changes no field. -/
theorem setCursor_in_range (s : SPI_VFD) (col row : Nat) (hrow : row < s._numlines)
    (hlines : s._numlines ≤ 4) :
    ∃ off, [0x00, 0x40, 0x14, 0x54][row]? = some off ∧
      setCursor s col row =
        some (s, wire s [Frame.command ((0x80 ||| (col + off)) % 256)]) ∧
      ∀ fs : List Frame, (∀ f ∈ fs, f.payload < 256) →
        wire s [Frame.command ((0x80 ||| (col + off)) % 256)] = wire s fs →
        fs = [Frame.command ((0x80 ||| (col + off)) % 256)] := by
  have hr : setCursor_row s row = row := by
    unfold setCursor_row
    rw [if_neg (by omega)]
  have h4 : row < 4 := by omega
  have hu : ∀ p : Nat, ∀ fs : List Frame, (∀ f ∈ fs, f.payload < 256) →
      wire s [Frame.command (p % 256)] = wire s fs → fs = [Frame.command (p % 256)] := by
    intro p fs hfs h
    refine (wire_inj s _ _ ?_ hfs h).symm
    intro f hf
    rw [List.mem_singleton] at hf
    rw [hf]
    exact Nat.mod_lt _ (by norm_num)
  interval_cases row
  · exact ⟨0x00, rfl, by simp [setCursor, hr, row_offsets, command_eq], hu _⟩
  · exact ⟨0x40, rfl, by simp [setCursor, hr, row_offsets, command_eq], hu _⟩
  · exact ⟨0x14, rfl, by simp [setCursor, hr, row_offsets, command_eq], hu _⟩
  · exact ⟨0x54, rfl, by simp [setCursor, hr, row_offsets, command_eq], hu _⟩

/-- Witness of `setCursor_in_range`: column 19 of row 1 on the two-line sample, whose
address 0x40 + 19 gives the payload 0xD3. -/
theorem setCursor_in_range_witness :
    ∃ off, [0x00, 0x40, 0x14, 0x54][1]? = some off ∧
      setCursor sample 19 1 =
        some (sample, wire sample [Frame.command ((0x80 ||| (19 + off)) % 256)]) ∧
      ∀ fs : List Frame, (∀ f ∈ fs, f.payload < 256) →
        wire sample [Frame.command ((0x80 ||| (19 + off)) % 256)] = wire sample fs →
        fs = [Frame.command ((0x80 ||| (19 + off)) % 256)] :=
  setCursor_in_range sample 19 1 (by decide) (by decide)

/-! ## Custom characters -/

theorem wire_append (s : SPI_VFD) (fs gs : List Frame) :
    wire s (fs ++ gs) = wire s fs ++ wire s gs := by
  simp [wire, List.flatMap_append]

theorem createChar_loop_eq (s : SPI_VFD) (charmap : List Nat) :
    ∀ n i, i + n ≤ charmap.length →
      createChar_loop s charmap i n =
        some (s, wire s (((charmap.drop i).take n).map Frame.data)) := by
  intro n
  induction n with
  | zero => intro i _; rfl
  | succ n ih =>
    intro i h
    have hi : i < charmap.length := by omega
    have e : charmap.drop i = charmap[i] :: charmap.drop (i + 1) := List.drop_eq_getElem_cons hi
    rw [createChar_loop, List.getElem?_eq_getElem hi]
    simp only [write_eq]
    rw [ih (i + 1) (by omega), e, List.take_succ_cons, List.map_cons]
    dsimp only
    rw [← wire_append]
    rfl

theorem createChar_eq (s : SPI_VFD) (location : Nat) (charmap : List Nat)
    (h : charmap.length = 8) :
    createChar s location charmap =
      some (s, wire s (Frame.command ((0x40 ||| ((location &&& 0x7) <<< 3)) % 256) ::
        charmap.map Frame.data)) := by
  unfold createChar
  simp only [command_eq]
  rw [createChar_loop_eq s charmap 8 0 (by omega)]
  have e : (charmap.drop 0).take 8 = charmap := by
    rw [List.drop_zero, ← h, List.take_length]
  rw [e]
  dsimp only
  rw [← wire_append]
  rfl

theorem cgram_payload_lt (location : Nat) : (0x40 ||| ((location &&& 0x7) <<< 3)) < 128 := by
  have h : location &&& 0x7 < 2 ^ 3 := Nat.and_lt_two_pow _ (by norm_num)
  have h2 : location &&& 0x7 < 8 := by simpa using h
  generalize location &&& 0x7 = x at h2
  interval_cases x <;> decide

/-- C9: for every slot byte and every 8-byte glyph, `createChar(slot, glyph)` returns
with the same transmission and the same resulting object as
`createChar(slot & 0x7, glyph)`; in particular slot 9 behaves as slot 1. -/
theorem createChar_slot_masked (s : SPI_VFD) (slot : Nat) (glyph : List Nat)
    (hlen : glyph.length = 8) :
    createChar s slot glyph = createChar s (slot &&& 0x7) glyph ∧
    (createChar s slot glyph).isSome = true ∧
    createChar s 9 glyph = createChar s 1 glyph := by
  refine ⟨?_, ?_, ?_⟩
  · rw [createChar_eq s slot glyph hlen, createChar_eq s (slot &&& 0x7) glyph hlen,
      Nat.and_assoc, Nat.and_self]
  · rw [createChar_eq s slot glyph hlen]; rfl
  · rw [createChar_eq s 9 glyph hlen, createChar_eq s 1 glyph hlen]; rfl

/-- Witness of `createChar_slot_masked`: a glyph of eight bytes in slot 9. -/
theorem createChar_slot_masked_witness :
    createChar sample 9 [0x00, 0x0A, 0x1F, 0x1F, 0x0E, 0x04, 0x00, 0x00] =
      createChar sample (9 &&& 0x7) [0x00, 0x0A, 0x1F, 0x1F, 0x0E, 0x04, 0x00, 0x00] :=
  (createChar_slot_masked sample 9 [0x00, 0x0A, 0x1F, 0x1F, 0x0E, 0x04, 0x00, 0x00] rfl).1

/-- C10: for every slot and every 8-byte glyph, `createChar(slot, glyph)` transmits
exactly nine frames in this order: one command frame with payload
0x40 | ((slot & 0x7) << 3), then eight data frames (marker 0xFA) with payloads
glyph[0], glyph[1], ..., glyph[7]; it changes no field. -/
theorem createChar_frames (s : SPI_VFD) (slot : Nat) (glyph : List Nat)
    (hlen : glyph.length = 8) (hbytes : ∀ b ∈ glyph, b < 256) :
    createChar s slot glyph =
      some (s, wire s (Frame.command (0x40 ||| ((slot &&& 0x7) <<< 3)) ::
        glyph.map Frame.data)) ∧
    (Frame.command (0x40 ||| ((slot &&& 0x7) <<< 3)) :: glyph.map Frame.data).length = 9 ∧
    (∀ i, i < 8 →
      (Frame.command (0x40 ||| ((slot &&& 0x7) <<< 3)) :: glyph.map Frame.data)[i + 1]? =
        (glyph[i]?).map Frame.data) ∧
    (∀ f ∈ glyph.map Frame.data, f.marker = 0xFA) ∧
    (∀ fs : List Frame, (∀ f ∈ fs, f.payload < 256) →
      wire s (Frame.command (0x40 ||| ((slot &&& 0x7) <<< 3)) :: glyph.map Frame.data) =
        wire s fs →
      fs = Frame.command (0x40 ||| ((slot &&& 0x7) <<< 3)) :: glyph.map Frame.data) := by
  have hp := cgram_payload_lt slot
  refine ⟨?_, ?_, ?_, ?_, ?_⟩
  · rw [createChar_eq s slot glyph hlen, Nat.mod_eq_of_lt (by omega)]
  · simp [hlen]
  · intro i _
    simp
  · intro f hf
    rw [List.mem_map] at hf
    obtain ⟨b, _, rfl⟩ := hf
    rfl
  · intro fs hfs h
    refine (wire_inj s _ _ ?_ hfs h).symm
    intro f hf
    rw [List.mem_cons] at hf
    rcases hf with hf | hf
    · rw [hf]; show (0x40 ||| ((slot &&& 0x7) <<< 3)) < 256; omega
    · rw [List.mem_map] at hf
      obtain ⟨b, hb, rfl⟩ := hf
      exact hbytes b hb

/-- Witness of `createChar_frames`: a glyph of eight bytes in slot 1. -/
theorem createChar_frames_witness :
    createChar sample 1 [0x00, 0x0A, 0x1F, 0x1F, 0x0E, 0x04, 0x00, 0x00] =
      some (sample, wire sample
        [Frame.command 0x48, Frame.data 0x00, Frame.data 0x0A, Frame.data 0x1F,
         Frame.data 0x1F, Frame.data 0x0E, Frame.data 0x04, Frame.data 0x00,
         Frame.data 0x00]) :=
  (createChar_frames sample 1 [0x00, 0x0A, 0x1F, 0x1F, 0x0E, 0x04, 0x00, 0x00] rfl
    (by decide)).1

/-! ## The entry-mode register -/

theorem orAssign_lt (x m : Nat) : orAssign x m < 256 :=
  Nat.mod_lt _ (by norm_num)

theorem andNot_lt (x m : Nat) : andNot x m < 256 := by
  unfold andNot
  have h : (0xFF ^^^ (m % 256)) < 2 ^ 8 :=
    Nat.xor_lt_two_pow (by norm_num) (by have := Nat.mod_lt m (show 0 < 256 by norm_num); omega)
  have h2 := Nat.and_lt_two_pow x h
  omega

theorem orAssign_testBit (x m i : Nat) (hx : x < 256) (hm : m < 256) :
    (orAssign x m).testBit i = (x.testBit i || m.testBit i) := by
  unfold orAssign
  have h : x ||| m < 2 ^ 8 := Nat.or_lt_two_pow (by omega) (by omega)
  rw [Nat.mod_eq_of_lt (by omega), Nat.testBit_or]

theorem andNot_testBit (x m i : Nat) (hx : x < 256) (hm : m < 256) :
    (andNot x m).testBit i = (x.testBit i && !m.testBit i) := by
  unfold andNot
  have e255 : (0xFF : Nat) = 2 ^ 8 - 1 := by norm_num
  rw [Nat.testBit_and, Nat.testBit_xor, Nat.mod_eq_of_lt hm, e255, Nat.testBit_two_pow_sub_one]
  by_cases h : i < 8
  · cases x.testBit i <;> cases m.testBit i <;> simp [h]
  · have hxi : x.testBit i = false :=
      Nat.testBit_lt_two_pow (lt_of_lt_of_le hx (by
        have : 2 ^ 8 ≤ 2 ^ i := Nat.pow_le_pow_right (by norm_num) (by omega)
        omega))
    simp [hxi]

theorem testBit_two (i : Nat) : (2 : Nat).testBit i = decide (i = 1) := by
  have h : (2 : Nat) = 2 ^ 1 := by norm_num
  rw [h, Nat.testBit_two_pow]
  by_cases hi : i = 1 <;> simp [hi, eq_comm]

theorem testBit_one (i : Nat) : (1 : Nat).testBit i = decide (i = 0) := by
  have h : (1 : Nat) = 2 ^ 0 := by norm_num
  rw [h, Nat.testBit_two_pow]
  by_cases hi : i = 0 <;> simp [hi, eq_comm]

theorem entry_payload (x : Nat) (hx : x < 256) : (0x04 ||| x) % 256 = 0x04 ||| x := by
  have h : 0x04 ||| x < 2 ^ 8 := Nat.or_lt_two_pow (by norm_num) (by omega)
  exact Nat.mod_eq_of_lt (by omega)

theorem begin_displaymode (k : Consts) (s : SPI_VFD) (cols lines dotsize : Nat) :
    (begin k s cols lines dotsize).1._displaymode = 2 := by
  unfold begin
  simp only [command_eq, clear, home, display, orAssign]
  rfl

/-- C11, as stated, fails: after `begin` the entry flags are 0x02 (left-to-right
already set), and `leftToRight()` then `rightToLeft()` leaves them at 0x00. -/
theorem leftToRight_rightToLeft_after_begin :
    (begin sampleConsts sample 20 2 0).1._displaymode = 0x02 ∧
    (rightToLeft (leftToRight (begin sampleConsts sample 20 2 0).1).1).1._displaymode = 0x00 ∧
    (rightToLeft (leftToRight (begin sampleConsts sample 20 2 0).1).1).1._displaymode ≠
      (begin sampleConsts sample 20 2 0).1._displaymode := by
  decide

/-- C11, amended: for every object, `leftToRight()` then `rightToLeft()` leaves the
entry-flags byte at its value before the `leftToRight()` call with bit 0x02 cleared;
it restores that value exactly when bit 0x02 was clear before the call. -/
theorem leftToRight_rightToLeft (s : SPI_VFD) (h : s._displaymode < 256) :
    (rightToLeft (leftToRight s).1).1._displaymode = s._displaymode &&& 0xFD ∧
    ((rightToLeft (leftToRight s).1).1._displaymode = s._displaymode ↔
      s._displaymode.testBit 1 = false) := by
  have e : (rightToLeft (leftToRight s).1).1._displaymode =
      andNot (orAssign s._displaymode 2) 2 := rfl
  have hb : ∀ i, (andNot (orAssign s._displaymode 2) 2).testBit i =
      (s._displaymode.testBit i && !decide (i = 1)) := by
    intro i
    rw [andNot_testBit _ _ _ (orAssign_lt _ _) (by norm_num),
      orAssign_testBit _ _ _ h (by norm_num), testBit_two]
    cases s._displaymode.testBit i <;> by_cases hi : i = 1 <;> simp [hi]
  have hfd : ∀ i, (0xFD : Nat).testBit i = (decide (i < 8) && !decide (i = 1)) := by
    intro i
    have e1 : (0xFD : Nat) = 2 ^ 8 - (2 + 1) := by norm_num
    rw [e1, Nat.testBit_two_pow_sub_succ (by norm_num), testBit_two]
  have hhi : ∀ i, ¬ i < 8 → s._displaymode.testBit i = false := by
    intro i hi
    exact Nat.testBit_lt_two_pow (lt_of_lt_of_le h (by
      have : 2 ^ 8 ≤ 2 ^ i := Nat.pow_le_pow_right (by norm_num) (by omega)
      omega))
  rw [e]
  constructor
  · apply Nat.eq_of_testBit_eq
    intro i
    rw [hb, Nat.testBit_and, hfd]
    by_cases hi : i < 8
    · simp [hi]
    · simp [hhi i hi]
  · constructor
    · intro heq
      have h1 := hb 1
      rw [heq] at h1
      simpa using h1
    · intro h1
      apply Nat.eq_of_testBit_eq
      intro i
      rw [hb]
      by_cases hi : i = 1
      · subst hi; simp [h1]
      · simp [hi]

/-- Witness of `leftToRight_rightToLeft`: entry flags 0x01, bit 0x02 clear. -/
theorem leftToRight_rightToLeft_witness :
    (rightToLeft (leftToRight { sample with _displaymode := 0x01 }).1).1._displaymode =
      0x01 &&& 0xFD :=
  (leftToRight_rightToLeft { sample with _displaymode := 0x01 } (by decide)).1

theorem wire_single_unique (s : SPI_VFD) (p : Nat) (hp : p < 256) (fs : List Frame)
    (hfs : ∀ f ∈ fs, f.payload < 256) (h : wire s [Frame.command p] = wire s fs) :
    fs = [Frame.command p] := by
  refine (wire_inj s _ _ ?_ hfs h).symm
  intro f hf
  rw [List.mem_singleton] at hf
  rw [hf]
  exact hp

theorem entry_set (s : SPI_VFD) (f : SPI_VFD → SPI_VFD × Trace) (m b : Nat)
    (hm : m = 2 ^ b) (hm8 : m < 256) (h : s._displaymode < 256)
    (hf : f s = command { s with _displaymode := orAssign s._displaymode m }
      ((LCD_ENTRYMODESET ||| orAssign s._displaymode m) % 256)) :
    (f s).1 = { s with _displaymode := (f s).1._displaymode } ∧
    (f s).1._displaymode.testBit b = true ∧
    (∀ i, i ≠ b → (f s).1._displaymode.testBit i = s._displaymode.testBit i) ∧
    (f s).2 = wire s [Frame.command (0x04 ||| (f s).1._displaymode)] ∧
    (f s).1._displaymode < 256 := by
  have e1 : (f s).1._displaymode = orAssign s._displaymode m := by rw [hf]; rfl
  have hb : ∀ i, (orAssign s._displaymode m).testBit i =
      (s._displaymode.testBit i || decide (b = i)) := by
    intro i
    rw [orAssign_testBit _ _ _ h hm8, hm, Nat.testBit_two_pow]
  refine ⟨by rw [hf]; rfl, ?_, ?_, ?_, ?_⟩
  · rw [e1, hb]; simp
  · intro i hi
    rw [e1, hb]
    have : ¬ b = i := fun hh => hi hh.symm
    simp [this]
  · rw [e1, hf, command_eq, entry_payload _ (orAssign_lt _ _)]
    rfl
  · rw [e1]; exact orAssign_lt _ _

theorem entry_clear (s : SPI_VFD) (f : SPI_VFD → SPI_VFD × Trace) (m b : Nat)
    (hm : m = 2 ^ b) (hm8 : m < 256) (h : s._displaymode < 256)
    (hf : f s = command { s with _displaymode := andNot s._displaymode m }
      ((LCD_ENTRYMODESET ||| andNot s._displaymode m) % 256)) :
    (f s).1 = { s with _displaymode := (f s).1._displaymode } ∧
    (f s).1._displaymode.testBit b = false ∧
    (∀ i, i ≠ b → (f s).1._displaymode.testBit i = s._displaymode.testBit i) ∧
    (f s).2 = wire s [Frame.command (0x04 ||| (f s).1._displaymode)] ∧
    (f s).1._displaymode < 256 := by
  have e1 : (f s).1._displaymode = andNot s._displaymode m := by rw [hf]; rfl
  have hb : ∀ i, (andNot s._displaymode m).testBit i =
      (s._displaymode.testBit i && !decide (b = i)) := by
    intro i
    rw [andNot_testBit _ _ _ h hm8, hm, Nat.testBit_two_pow]
  refine ⟨by rw [hf]; rfl, ?_, ?_, ?_, ?_⟩
  · rw [e1, hb]; simp
  · intro i hi
    rw [e1, hb]
    have : ¬ b = i := fun hh => hi hh.symm
    simp [this]
  · rw [e1, hf, command_eq, entry_payload _ (andNot_lt _ _)]
    rfl
  · rw [e1]; exact andNot_lt _ _

/-- C15: for every object, each of `leftToRight()`, `rightToLeft()`, `autoscroll()`,
`noAutoscroll()` changes only its own bit of the entry flags (0x02 set, 0x02 cleared,
0x01 set, 0x01 cleared), leaves every other bit of the entry flags and every other
field unchanged, and transmits exactly one command frame whose payload is
0x04 | (the whole updated entry-flags byte). -/
theorem entry_calls (s : SPI_VFD) (h : s._displaymode < 256) :
    ∀ e ∈ entryCalls,
      (e.1 s).1 = { s with _displaymode := (e.1 s).1._displaymode } ∧
      (e.1 s).1._displaymode.testBit e.2.1 = e.2.2 ∧
      (∀ i, i ≠ e.2.1 → (e.1 s).1._displaymode.testBit i = s._displaymode.testBit i) ∧
      (e.1 s).2 = wire s [Frame.command (0x04 ||| (e.1 s).1._displaymode)] ∧
      (∀ fs : List Frame, (∀ f ∈ fs, f.payload < 256) → (e.1 s).2 = wire s fs →
        fs = [Frame.command (0x04 ||| (e.1 s).1._displaymode)]) := by
  have fin : ∀ (f : SPI_VFD → SPI_VFD × Trace) (b : Nat) (v : Bool),
      ((f s).1 = { s with _displaymode := (f s).1._displaymode } ∧
        (f s).1._displaymode.testBit b = v ∧
        (∀ i, i ≠ b → (f s).1._displaymode.testBit i = s._displaymode.testBit i) ∧
        (f s).2 = wire s [Frame.command (0x04 ||| (f s).1._displaymode)] ∧
        (f s).1._displaymode < 256) →
      ((f s).1 = { s with _displaymode := (f s).1._displaymode } ∧
        (f s).1._displaymode.testBit b = v ∧
        (∀ i, i ≠ b → (f s).1._displaymode.testBit i = s._displaymode.testBit i) ∧
        (f s).2 = wire s [Frame.command (0x04 ||| (f s).1._displaymode)] ∧
        (∀ fs : List Frame, (∀ g ∈ fs, g.payload < 256) → (f s).2 = wire s fs →
          fs = [Frame.command (0x04 ||| (f s).1._displaymode)])) := by
    intro f b v ⟨a1, a2, a3, a4, a5⟩
    refine ⟨a1, a2, a3, a4, ?_⟩
    intro fs hfs hh
    rw [a4] at hh
    have hp : 0x04 ||| (f s).1._displaymode < 256 := by
      have : 0x04 ||| (f s).1._displaymode < 2 ^ 8 :=
        Nat.or_lt_two_pow (by norm_num) (by omega)
      omega
    exact wire_single_unique s _ hp fs hfs hh
  intro e he
  simp only [entryCalls, List.mem_cons, List.mem_singleton, List.not_mem_nil, or_false] at he
  rcases he with rfl | rfl | rfl | rfl
  · exact fin _ _ _ (entry_set s leftToRight 2 1 (by norm_num) (by norm_num) h rfl)
  · exact fin _ _ _ (entry_clear s rightToLeft 2 1 (by norm_num) (by norm_num) h rfl)
  · exact fin _ _ _ (entry_set s autoscroll 1 0 (by norm_num) (by norm_num) h rfl)
  · exact fin _ _ _ (entry_clear s noAutoscroll 1 0 (by norm_num) (by norm_num) h rfl)

/-- Witness of `entry_calls`: `autoscroll()` on entry flags 0x02 transmits 0x07. -/
theorem entry_calls_witness :
    (autoscroll { sample with _displaymode := 0x02 }).2 =
      wire sample [Frame.command 0x07] :=
  (entry_calls { sample with _displaymode := 0x02 } (by decide)
    (autoscroll, 0, true) (by simp [entryCalls])).2.2.2.1

/-! ## Clear, home and scroll -/

theorem pinWrites_append (t1 t2 : Trace) :
    pinWrites (t1 ++ t2) = pinWrites t1 ++ pinWrites t2 := by
  simp [pinWrites]

theorem pinWrites_serialize (c d b : Nat) :
    pinWrites (serialize c d b) = serialize c d b := by
  rw [serialize_eq]; rfl

theorem pinWrites_frameTrace (s : SPI_VFD) (m p : Nat) :
    pinWrites (frameTrace s m p) = frameTrace s m p := by
  unfold frameTrace
  simp only [pinWrites_append, pinWrites_serialize]
  unfold assertSelect deassertSelect
  split <;> rfl

theorem pinWrites_wire (s : SPI_VFD) (fs : List Frame) :
    pinWrites (wire s fs) = wire s fs := by
  induction fs with
  | nil => rfl
  | cons f fs ih => rw [wire_cons, pinWrites_append, pinWrites_frameTrace, ih]

theorem pinWrites_delay (us : Nat) : pinWrites [Event.delayMicroseconds us] = [] := rfl

theorem clear_eq (s : SPI_VFD) :
    clear s = (s, wire s [Frame.command 0x01] ++ [Event.delayMicroseconds 2000]) := by
  unfold clear
  rw [command_eq]

theorem home_eq (s : SPI_VFD) :
    home s = (s, wire s [Frame.command 0x02] ++ [Event.delayMicroseconds 2000]) := by
  unfold home
  rw [command_eq]

/-- C14: for every object, `clear()` emits exactly one command frame with payload
0x01 followed by the delay call of 2000 microseconds, `home()` one command frame with
payload 0x02 followed by the delay call of 2000 microseconds; in both the delay is
the last call of the operation, after the whole frame, and no field changes. -/
theorem clear_home (s : SPI_VFD) :
    clear s = (s, wire s [Frame.command 0x01] ++ [Event.delayMicroseconds 2000]) ∧
    home s = (s, wire s [Frame.command 0x02] ++ [Event.delayMicroseconds 2000]) ∧
    pinWrites (clear s).2 = wire s [Frame.command 0x01] ∧
    pinWrites (home s).2 = wire s [Frame.command 0x02] ∧
    (∃ us, 2000 ≤ us ∧ (clear s).2.getLast? = some (Event.delayMicroseconds us)) ∧
    (∃ us, 2000 ≤ us ∧ (home s).2.getLast? = some (Event.delayMicroseconds us)) ∧
    (∀ fs : List Frame, (∀ f ∈ fs, f.payload < 256) → pinWrites (clear s).2 = wire s fs →
      fs = [Frame.command 0x01]) ∧
    (∀ fs : List Frame, (∀ f ∈ fs, f.payload < 256) → pinWrites (home s).2 = wire s fs →
      fs = [Frame.command 0x02]) := by
  have pc : pinWrites (clear s).2 = wire s [Frame.command 0x01] := by
    rw [clear_eq]
    show pinWrites (wire s [Frame.command 0x01] ++ [Event.delayMicroseconds 2000]) = _
    rw [pinWrites_append, pinWrites_wire, pinWrites_delay, List.append_nil]
  have ph : pinWrites (home s).2 = wire s [Frame.command 0x02] := by
    rw [home_eq]
    show pinWrites (wire s [Frame.command 0x02] ++ [Event.delayMicroseconds 2000]) = _
    rw [pinWrites_append, pinWrites_wire, pinWrites_delay, List.append_nil]
  refine ⟨clear_eq s, home_eq s, pc, ph, ⟨2000, le_refl _, ?_⟩, ⟨2000, le_refl _, ?_⟩, ?_, ?_⟩
  · rw [clear_eq]
    exact List.getLast?_concat _
  · rw [home_eq]
    exact List.getLast?_concat _
  · intro fs hfs h
    rw [pc] at h
    exact wire_single_unique s _ (by norm_num) fs hfs h
  · intro fs hfs h
    rw [ph] at h
    exact wire_single_unique s _ (by norm_num) fs hfs h

/-- Witness of `clear_home`: `clear()` on the sample wiring. -/
theorem clear_home_witness :
    clear sample =
      (sample, wire sample [Frame.command 0x01] ++ [Event.delayMicroseconds 2000]) :=
  (clear_home sample).1

/-- C16: for every object, `scrollDisplayLeft()` transmits exactly one command frame
with payload 0x18 (0x10 | 0x08 | 0x00) and `scrollDisplayRight()` exactly one command
frame with payload 0x1C (0x10 | 0x08 | 0x04); neither transmits a data frame nor
changes a field. -/
theorem scroll_calls (s : SPI_VFD) :
    scrollDisplayLeft s = (s, wire s [Frame.command 0x18]) ∧
    scrollDisplayRight s = (s, wire s [Frame.command 0x1C]) ∧
    (0x18 : Nat) = 0x10 ||| 0x08 ||| 0x00 ∧ (0x1C : Nat) = 0x10 ||| 0x08 ||| 0x04 ∧
    (∀ fs : List Frame, (∀ f ∈ fs, f.payload < 256) →
      (scrollDisplayLeft s).2 = wire s fs → fs = [Frame.command 0x18]) ∧
    (∀ fs : List Frame, (∀ f ∈ fs, f.payload < 256) →
      (scrollDisplayRight s).2 = wire s fs → fs = [Frame.command 0x1C]) := by
  have el : scrollDisplayLeft s = (s, wire s [Frame.command 0x18]) := by
    unfold scrollDisplayLeft
    rw [command_eq]
    rfl
  have er : scrollDisplayRight s = (s, wire s [Frame.command 0x1C]) := by
    unfold scrollDisplayRight
    rw [command_eq]
    rfl
  refine ⟨el, er, by decide, by decide, ?_, ?_⟩
  · intro fs hfs h
    rw [el] at h
    exact wire_single_unique s _ (by norm_num) fs hfs h
  · intro fs hfs h
    rw [er] at h
    exact wire_single_unique s _ (by norm_num) fs hfs h

/-- Witness of `scroll_calls`: `scrollDisplayRight()` on the sample wiring. -/
theorem scroll_calls_witness :
    scrollDisplayRight sample = (sample, wire sample [Frame.command 0x1C]) :=
  (scroll_calls sample).2.1

/-! ## Initialization -/

theorem begin_displayfunction (k : Consts) (s : SPI_VFD) (cols lines dotsize : Nat) :
    (begin k s cols lines dotsize).1._displayfunction =
      if lines > 1 then orAssign s._displayfunction LCD_2LINE
      else if dotsize ≠ 0 ∧ lines = 1 then orAssign s._displayfunction k.LCD_5x10DOTS
      else s._displayfunction := by
  unfold begin
  simp only [command_eq, clear, home, display]
  by_cases h1 : lines > 1
  · have h2 : ¬ (dotsize ≠ 0 ∧ lines = 1) := by omega
    rw [if_pos h1, if_neg h2, if_pos h1]
  · rw [if_neg h1, if_neg h1]
    by_cases h2 : dotsize ≠ 0 ∧ lines = 1
    · rw [if_pos h2, if_pos h2]
    · rw [if_neg h2, if_neg h2]

theorem begin_currline (k : Consts) (s : SPI_VFD) (cols lines dotsize : Nat) :
    (begin k s cols lines dotsize).1._currline = 0 := by
  unfold begin
  simp only [command_eq, clear, home, display]
  split <;> split <;> rfl

theorem begin_trace (k : Consts) (s : SPI_VFD) (cols lines dotsize : Nat) :
    (begin k s cols lines dotsize).2 =
      wire s [Frame.command 0x01] ++ [Event.delayMicroseconds 2000] ++
      wire s [Frame.command 0x02] ++ [Event.delayMicroseconds 2000] ++
      wire s [Frame.command ((0x30 ||| (begin k s cols lines dotsize).1._displayfunction) % 256),
        Frame.command 0x06, Frame.command 0x80, Frame.command 0x0C, Frame.command 0x80] := by
  by_cases h1 : lines > 1
  · have h2 : ¬ (dotsize ≠ 0 ∧ lines = 1) := by omega
    unfold begin
    simp only [command_eq, clear, home, display, if_pos h1, if_neg h2, wire_cons,
      List.append_assoc]
    rfl
  · by_cases h2 : dotsize ≠ 0 ∧ lines = 1
    · unfold begin
      simp only [command_eq, clear, home, display, if_neg h1, if_pos h2, wire_cons, List.append_assoc]
      rfl
    · unfold begin
      simp only [command_eq, clear, home, display, if_neg h1, if_neg h2, wire_cons, List.append_assoc]
      rfl

theorem begin_pinWrites (k : Consts) (s : SPI_VFD) (cols lines dotsize : Nat) :
    pinWrites (begin k s cols lines dotsize).2 =
      wire s [Frame.command 0x01, Frame.command 0x02,
        Frame.command ((0x30 ||| (begin k s cols lines dotsize).1._displayfunction) % 256),
        Frame.command 0x06, Frame.command 0x80, Frame.command 0x0C, Frame.command 0x80] := by
  rw [begin_trace]
  simp only [pinWrites_append, pinWrites_wire, pinWrites_delay, List.append_nil]
  rw [← wire_append, ← wire_append]
  rfl

theorem functionset_testBit (f i : Nat) :
    ((0x30 ||| f) % 256).testBit i =
      (decide (i < 8) && ((0x30 : Nat).testBit i || f.testBit i)) := by
  have e : (256 : Nat) = 2 ^ 8 := by norm_num
  rw [e, Nat.testBit_mod_two_pow, Nat.testBit_or]

theorem orAssign_testBit_ge (x m i : Nat) :
    (orAssign x m).testBit i = (decide (i < 8) && (x.testBit i || m.testBit i)) := by
  unfold orAssign
  have e : (256 : Nat) = 2 ^ 8 := by norm_num
  rw [e, Nat.testBit_mod_two_pow, Nat.testBit_or]

/-- C12: for every prior object and every cols and dotsize, `begin(cols, lines,
dotsize)` transmits exactly 7 command frames and no data frame, with payloads in
order 0x01 (clear), 0x02 (home), function-set opcode | functionFlags, 0x06 (entry
mode), 0x80 (address 0), 0x0C (display on, cursor off, blink off), 0x80 (address 0
again), the two 2000-microsecond delays coming after the first and the second frame;
for `begin(20, 2)` the function-set payload has the 2-line bit (0x08) set.  After it
entryFlags = 0x02, controlFlags = 0x04, lineCount = lines and currentLine = 0. -/
theorem begin_frames (k : Consts) (s : SPI_VFD) (cols lines dotsize : Nat) :
    (begin k s cols lines dotsize).2 =
      wire s [Frame.command 0x01] ++ [Event.delayMicroseconds 2000] ++
      wire s [Frame.command 0x02] ++ [Event.delayMicroseconds 2000] ++
      wire s [Frame.command ((0x30 ||| (begin k s cols lines dotsize).1._displayfunction) % 256),
        Frame.command 0x06, Frame.command 0x80, Frame.command 0x0C, Frame.command 0x80] ∧
    pinWrites (begin k s cols lines dotsize).2 =
      wire s [Frame.command 0x01, Frame.command 0x02,
        Frame.command ((0x30 ||| (begin k s cols lines dotsize).1._displayfunction) % 256),
        Frame.command 0x06, Frame.command 0x80, Frame.command 0x0C, Frame.command 0x80] ∧
    (∀ fs : List Frame, (∀ f ∈ fs, f.payload < 256) →
      pinWrites (begin k s cols lines dotsize).2 = wire s fs →
      fs = [Frame.command 0x01, Frame.command 0x02,
        Frame.command ((0x30 ||| (begin k s cols lines dotsize).1._displayfunction) % 256),
        Frame.command 0x06, Frame.command 0x80, Frame.command 0x0C, Frame.command 0x80]) ∧
    (s._displayfunction < 256 →
      (0x30 ||| (begin k s cols lines dotsize).1._displayfunction) % 256 =
        0x30 ||| (begin k s cols lines dotsize).1._displayfunction) ∧
    ((0x30 ||| (begin k s 20 2 dotsize).1._displayfunction) % 256).testBit 3 = true ∧
    (begin k s cols lines dotsize).1._displaymode = 0x02 ∧
    (begin k s cols lines dotsize).1._displaycontrol = 0x04 ∧
    (begin k s cols lines dotsize).1._numlines = lines ∧
    (begin k s cols lines dotsize).1._currline = 0 := by
  refine ⟨begin_trace k s cols lines dotsize, begin_pinWrites k s cols lines dotsize, ?_, ?_, ?_,
    begin_displaymode k s cols lines dotsize, begin_displaycontrol k s cols lines dotsize,
    begin_numlines k s cols lines dotsize, begin_currline k s cols lines dotsize⟩
  · intro fs hfs h
    rw [begin_pinWrites] at h
    refine (wire_inj s _ _ ?_ hfs h).symm
    intro f hf
    simp only [List.mem_cons, List.mem_singleton, List.not_mem_nil, or_false] at hf
    rcases hf with rfl | rfl | rfl | rfl | rfl | rfl | rfl
    · show (0x01 : Nat) < 256; norm_num
    · show (0x02 : Nat) < 256; norm_num
    · exact Nat.mod_lt _ (by norm_num)
    · show (0x06 : Nat) < 256; norm_num
    · show (0x80 : Nat) < 256; norm_num
    · show (0x0C : Nat) < 256; norm_num
    · show (0x80 : Nat) < 256; norm_num
  · intro hf
    have hlt : (begin k s cols lines dotsize).1._displayfunction < 256 := by
      rw [begin_displayfunction]
      split
      · exact orAssign_lt _ _
      · split
        · exact orAssign_lt _ _
        · exact hf
    have h2 : 0x30 ||| (begin k s cols lines dotsize).1._displayfunction < 2 ^ 8 :=
      Nat.or_lt_two_pow (by norm_num) (by omega)
    exact Nat.mod_eq_of_lt (by omega)
  · rw [begin_displayfunction, if_pos (by norm_num), functionset_testBit, orAssign_testBit_ge]
    have h8 : (LCD_2LINE).testBit 3 = true := by decide
    simp [h8]

/-- Witness of `begin_frames`: `begin(20, 2)` on the sample object, whose function
flags are zero, transmits the function-set byte 0x38. -/
theorem begin_frames_witness :
    pinWrites (begin sampleConsts sample 20 2 0).2 =
      wire sample [Frame.command 0x01, Frame.command 0x02, Frame.command 0x38,
        Frame.command 0x06, Frame.command 0x80, Frame.command 0x0C, Frame.command 0x80] :=
  (begin_frames sampleConsts sample 20 2 0).2.1

/-- C13, as stated, fails: an object constructed and then set up with
`begin(16, 1, 1)` has the larger-font flag in its function flags; a later
`begin(20, 2)` transmits the function-set byte 0x3C, with the larger-font bit still
set although lines is 2. -/
theorem begin_font_bit_kept :
    sampleConsts.LCD_5x10DOTS = 0x04 ∧
    (0x30 ||| (begin sampleConsts
      (begin sampleConsts (construct3 sampleConsts sample 11 13 10).1 16 1 1).1
      20 2 0).1._displayfunction) % 256 = 0x3C ∧
    ((0x30 ||| (begin sampleConsts
      (begin sampleConsts (construct3 sampleConsts sample 11 13 10).1 16 1 1).1
      20 2 0).1._displayfunction) % 256).testBit 2 = true ∧
    ¬ (2 = 1 ∧ 0 ≠ 0) := by
  decide

/-- C13, amended: for every object and every cols, lines and dotsize, the
function-set byte that `begin(cols, lines, dotsize)` transmits has the 2-line bit set
whenever lines > 1; it has the bits of the larger-font flag set when lines is exactly
1 and dotsize is non-zero, and otherwise has such a bit set only if the bit was
already set in the function flags before the call (`begin` clears no flag) or is a
bit of the opcode 0x30 or the 2-line bit 0x08 itself. -/
theorem begin_function_set (k : Consts) (s : SPI_VFD) (cols lines dotsize : Nat) :
    pinWrites (begin k s cols lines dotsize).2 =
      wire s [Frame.command 0x01, Frame.command 0x02,
        Frame.command ((0x30 ||| (begin k s cols lines dotsize).1._displayfunction) % 256),
        Frame.command 0x06, Frame.command 0x80, Frame.command 0x0C, Frame.command 0x80] ∧
    (lines > 1 →
      ((0x30 ||| (begin k s cols lines dotsize).1._displayfunction) % 256).testBit 3 = true) ∧
    (lines = 1 → dotsize ≠ 0 → ∀ i, i < 8 → k.LCD_5x10DOTS.testBit i = true →
      ((0x30 ||| (begin k s cols lines dotsize).1._displayfunction) % 256).testBit i = true) ∧
    (∀ i, k.LCD_5x10DOTS.testBit i = true →
      ((0x30 ||| (begin k s cols lines dotsize).1._displayfunction) % 256).testBit i = true →
      (lines = 1 ∧ dotsize ≠ 0) ∨ s._displayfunction.testBit i = true ∨
        (0x38 : Nat).testBit i = true) := by
  refine ⟨begin_pinWrites k s cols lines dotsize, ?_, ?_, ?_⟩
  · intro h
    rw [begin_displayfunction, if_pos h, functionset_testBit, orAssign_testBit_ge]
    have h8 : (LCD_2LINE).testBit 3 = true := by decide
    simp [h8]
  · intro h1 h2 i hi hk
    have hn : ¬ lines > 1 := by omega
    rw [begin_displayfunction, if_neg hn, if_pos ⟨h2, h1⟩, functionset_testBit,
      orAssign_testBit_ge, hk]
    simp [hi]
  · intro i hk hp
    by_cases h1 : lines = 1 ∧ dotsize ≠ 0
    · exact Or.inl h1
    · right
      have h2 : ¬ (dotsize ≠ 0 ∧ lines = 1) := fun h => h1 ⟨h.2, h.1⟩
      have e38 : (0x38 : Nat) = 0x30 ||| 0x08 := by decide
      rw [e38, Nat.testBit_or]
      rw [begin_displayfunction, functionset_testBit] at hp
      by_cases hl : lines > 1
      · rw [if_pos hl, orAssign_testBit_ge] at hp
        have e8 : (LCD_2LINE).testBit i = (8 : Nat).testBit i := rfl
        rw [e8] at hp
        revert hp
        cases (0x30 : Nat).testBit i <;> cases s._displayfunction.testBit i <;>
          cases (8 : Nat).testBit i <;> simp
      · rw [if_neg hl, if_neg h2] at hp
        revert hp
        cases (0x30 : Nat).testBit i <;> cases s._displayfunction.testBit i <;> simp

/-- Witness of `begin_function_set`: `begin(20, 2)` on the sample object transmits
a function-set byte with the 2-line bit set. -/
theorem begin_function_set_witness :
    ((0x30 ||| (begin sampleConsts sample 20 2 0).1._displayfunction) % 256).testBit 3 = true :=
  (begin_function_set sampleConsts sample 20 2 0).2.1 (by decide)

/-! ## Clock and data discipline of a frame -/

theorem serialize_data_at (c d b : Nat) (hcd : c ≠ d) (j : Nat) (l : Level)
    (h : (serialize c d b)[j]? = some (Event.digitalWrite d l)) :
    1 ≤ j ∧ j + 1 < 25 ∧ (serialize c d b)[j - 1]? = some (Event.digitalWrite c Level.LOW) ∧
      (serialize c d b)[j + 1]? = some (Event.digitalWrite c Level.HIGH) := by
  have hdc : ¬ c = d := hcd
  by_cases hj : j < 25
  · rw [serialize_eq] at h ⊢
    interval_cases j <;> simp [hdc] at h <;> exact ⟨by norm_num, by norm_num, rfl, rfl⟩
  · rw [List.getElem?_eq_none (by rw [serialize_length]; omega)] at h
    cases h

theorem getElem?_segment (pre mid post : Trace) (n : Nat) (hn : n < mid.length) :
    (pre ++ mid ++ post)[pre.length + n]? = mid[n]? := by
  rw [List.append_assoc, List.getElem?_append_right (by omega)]
  rw [show pre.length + n - pre.length = n by omega]
  rw [List.getElem?_append_left hn]

theorem segment_guarded (c d b : Nat) (hcd : c ≠ d) (pre post : Trace) (j : Nat) (l : Level)
    (h : (serialize c d b)[j]? = some (Event.digitalWrite d l)) :
    0 < pre.length + j ∧
    (pre ++ serialize c d b ++ post)[pre.length + j - 1]? =
      some (Event.digitalWrite c Level.LOW) ∧
    (pre ++ serialize c d b ++ post)[pre.length + j + 1]? =
      some (Event.digitalWrite c Level.HIGH) := by
  obtain ⟨h1, h2, h3, h4⟩ := serialize_data_at c d b hcd j l h
  have hlen := serialize_length c d b
  refine ⟨by omega, ?_, ?_⟩
  · rw [show pre.length + j - 1 = pre.length + (j - 1) by omega,
      getElem?_segment _ _ _ _ (by omega)]
    exact h3
  · rw [show pre.length + j + 1 = pre.length + (j + 1) by omega,
      getElem?_segment _ _ _ _ (by omega)]
    exact h4

theorem frameTrace_guarded (s : SPI_VFD) (m p : Nat) (hcd : s._clock ≠ s._data)
    (hsd : s._chipselect ≠ 0 → s._chipselect ≠ s._data) (i : Nat) (l : Level)
    (h : (frameTrace s m p)[i]? = some (Event.digitalWrite s._data l)) :
    0 < i ∧ (frameTrace s m p)[i - 1]? = some (Event.digitalWrite s._clock Level.LOW) ∧
      (frameTrace s m p)[i + 1]? = some (Event.digitalWrite s._clock Level.HIGH) := by
  have hl1 := serialize_length s._clock s._data m
  have hl2 := serialize_length s._clock s._data p
  have hA : ∀ n : Nat, (assertSelect s)[n]? ≠ some (Event.digitalWrite s._data l) := by
    intro n hn
    unfold assertSelect at hn
    by_cases hc : s._chipselect ≠ 0
    · rw [if_pos hc] at hn
      cases n with
      | zero =>
        simp only [List.getElem?_cons_zero, Option.some.injEq, Event.digitalWrite.injEq] at hn
        exact hsd hc hn.1
      | succ n => simp at hn
    · rw [if_neg hc] at hn
      simp at hn
  have hD : ∀ n : Nat, (deassertSelect s)[n]? ≠ some (Event.digitalWrite s._data l) := by
    intro n hn
    unfold deassertSelect at hn
    by_cases hc : s._chipselect ≠ 0
    · rw [if_pos hc] at hn
      cases n with
      | zero =>
        simp only [List.getElem?_cons_zero, Option.some.injEq, Event.digitalWrite.injEq] at hn
        exact hsd hc hn.1
      | succ n => simp at hn
    · rw [if_neg hc] at hn
      simp at hn
  unfold frameTrace at h ⊢
  generalize assertSelect s = A at h hA ⊢
  generalize deassertSelect s = D at h hD ⊢
  by_cases h1 : i < A.length
  · exfalso
    rw [List.append_assoc, List.append_assoc, List.getElem?_append_left h1] at h
    exact hA i h
  · by_cases h2 : i < A.length + 25
    · obtain ⟨j, rfl⟩ : ∃ j, i = A.length + j := ⟨i - A.length, by omega⟩
      have e : A ++ serialize s._clock s._data m ++ serialize s._clock s._data p ++ D =
          A ++ serialize s._clock s._data m ++ (serialize s._clock s._data p ++ D) := by
        simp only [List.append_assoc]
      rw [e] at h ⊢
      rw [getElem?_segment _ _ _ _ (by omega)] at h
      exact segment_guarded _ _ _ hcd _ _ _ _ h
    · by_cases h3 : i < A.length + 50
      · obtain ⟨j, rfl⟩ : ∃ j, i = (A ++ serialize s._clock s._data m).length + j :=
          ⟨i - (A.length + 25), by rw [List.length_append]; omega⟩
        have hj : j < 25 := by
          simp only [List.length_append] at h3
          omega
        rw [getElem?_segment _ _ _ _ (by omega)] at h
        exact segment_guarded _ _ _ hcd _ _ _ _ h
      · exfalso
        rw [List.getElem?_append_right (by simp only [List.length_append]; omega)] at h
        exact hD _ h

theorem linesAfter_append (s : SPI_VFD) (w : Lines) (t1 t2 : Trace) :
    linesAfter s w (t1 ++ t2) = linesAfter s (linesAfter s w t1) t2 := by
  simp [linesAfter, List.foldl_append]

theorem risingEdges_append (s : SPI_VFD) (t1 t2 : Trace) :
    ∀ w, risingEdges s w (t1 ++ t2) =
      risingEdges s w t1 ++ risingEdges s (linesAfter s w t1) t2 := by
  induction t1 with
  | nil => intro w; rfl
  | cons e t1 ih =>
    intro w
    show _ ++ risingEdges s (w.after s e) (t1 ++ t2) = (_ ++ risingEdges s (w.after s e) t1) ++ _
    rw [ih, List.append_assoc]
    rfl

theorem risingEdges_serialize_high (s : SPI_VFD) (b : Nat) (w : Lines)
    (hcd : s._clock ≠ s._data) (hw : w.clock = Level.HIGH) :
    risingEdges s w (serialize s._clock s._data b) = msbFirst b := by
  have h2 : s._data ≠ s._clock := fun h => hcd h.symm
  rw [serialize_eq]
  simp [risingEdges, Lines.after, hcd, h2, hw, msbFirst]

theorem linesAfter_serialize_clock (s : SPI_VFD) (b : Nat) (w : Lines) :
    (linesAfter s w (serialize s._clock s._data b)).clock = Level.HIGH := by
  rw [serialize_eq]
  simp [linesAfter, Lines.after]

theorem linesAfter_deassert_clock (s : SPI_VFD) (w : Lines) (hw : w.clock = Level.HIGH) :
    (linesAfter s w (deassertSelect s)).clock = Level.HIGH := by
  unfold deassertSelect
  split
  · simp only [linesAfter, List.foldl_cons, List.foldl_nil, Lines.after]
    split
    · rfl
    · exact hw
  · exact hw

theorem risingEdges_deassert (s : SPI_VFD) (w : Lines) (hw : w.clock = Level.HIGH) :
    risingEdges s w (deassertSelect s) = [] := by
  unfold deassertSelect
  split
  · simp [risingEdges, hw]
  · rfl

theorem serialize_getLast (c d b : Nat) :
    (serialize c d b).getLast? = some (Event.digitalWrite c Level.HIGH) := by
  rw [serialize_eq]; rfl

theorem frameTrace_discipline (s : SPI_VFD) (m v : Nat) (hcd : s._clock ≠ s._data)
    (hsd : s._chipselect ≠ 0 → s._chipselect ≠ s._data) :
    (∀ (i : Nat) (l : Level), (frameTrace s m v)[i]? = some (Event.digitalWrite s._data l) →
      0 < i ∧ (frameTrace s m v)[i - 1]? = some (Event.digitalWrite s._clock Level.LOW) ∧
        (frameTrace s m v)[i + 1]? = some (Event.digitalWrite s._clock Level.HIGH)) ∧
    (send s m).getLast? = some (Event.digitalWrite s._clock Level.HIGH) ∧
    (send s v).getLast? = some (Event.digitalWrite s._clock Level.HIGH) ∧
    (∀ w, (linesAfter s w (frameTrace s m v)).clock = Level.HIGH) ∧
    (∀ w, risingEdges s w (frameTrace s m v) =
      risingEdges s w (assertSelect s ++ send s m) ++ msbFirst v) ∧
    (msbFirst v).length = 8 := by
  refine ⟨fun i l h => frameTrace_guarded s m v hcd hsd i l h, ?_, ?_, ?_, ?_, rfl⟩
  · rw [send_eq_serialize]; exact serialize_getLast _ _ _
  · rw [send_eq_serialize]; exact serialize_getLast _ _ _
  · intro w
    unfold frameTrace
    rw [linesAfter_append, linesAfter_append]
    exact linesAfter_deassert_clock s _ (linesAfter_serialize_clock s v _)
  · intro w
    unfold frameTrace
    rw [risingEdges_append, risingEdges_append, send_eq_serialize]
    rw [risingEdges_serialize_high s v _ hcd (by
      rw [linesAfter_append]; exact linesAfter_serialize_clock s m _)]
    rw [risingEdges_deassert s _ (by
      rw [linesAfter_append]; exact linesAfter_serialize_clock s v _)]
    rw [List.append_nil]

/-- C18: in the pin-write trace of every frame sent by `command(v)` or `write(v)`,
with clock, data and chip-select on different pins, every write to the data line is
immediately preceded by a clock LOW write and immediately followed by a clock HIGH
write; the last write of each serialized byte is clock HIGH, so the clock line is
HIGH after the frame, and the second byte of the frame adds exactly 8 low-to-high
clock transitions, at which the data line holds the bits of `v` from bit 7 to bit 0. -/
theorem frame_discipline (s : SPI_VFD) (v : Nat) (hcd : s._clock ≠ s._data)
    (hsd : s._chipselect ≠ 0 → s._chipselect ≠ s._data) :
    ∀ x ∈ [((command s v).2, LCD_SPICOMMAND), ((write s v).2, LCD_SPIDATA)],
      (∀ (i : Nat) (l : Level), x.1[i]? = some (Event.digitalWrite s._data l) →
        0 < i ∧ x.1[i - 1]? = some (Event.digitalWrite s._clock Level.LOW) ∧
          x.1[i + 1]? = some (Event.digitalWrite s._clock Level.HIGH)) ∧
      (send s x.2).getLast? = some (Event.digitalWrite s._clock Level.HIGH) ∧
      (send s v).getLast? = some (Event.digitalWrite s._clock Level.HIGH) ∧
      (∀ w, (linesAfter s w x.1).clock = Level.HIGH) ∧
      (∀ w, risingEdges s w x.1 = risingEdges s w (assertSelect s ++ send s x.2) ++ msbFirst v) ∧
      (msbFirst v).length = 8 := by
  intro x hx
  simp only [List.mem_cons, List.mem_singleton, List.not_mem_nil, or_false] at hx
  rcases hx with rfl | rfl
  · have e : (command s v).2 = frameTrace s LCD_SPICOMMAND v := by
      rw [command_eq, wire_single]; rfl
    simp only [e]
    exact frameTrace_discipline s _ v hcd hsd
  · have e : (write s v).2 = frameTrace s LCD_SPIDATA v := by
      rw [write_eq, wire_single]; rfl
    simp only [e]
    exact frameTrace_discipline s _ v hcd hsd

/-- Witness of `frame_discipline`: `write(0x41)` on the sample wiring, started with
both lines LOW, leaves the clock line HIGH. -/
theorem frame_discipline_witness :
    (linesAfter sample { clock := Level.LOW, data := Level.LOW }
      (write sample 0x41).2).clock = Level.HIGH :=
  (frame_discipline sample 0x41 (by decide) (by decide)
    ((write sample 0x41).2, LCD_SPIDATA) (by simp)).2.2.2.1 _

/-! ## Invariants of the driver object -/

theorem createChar_loop_state (s : SPI_VFD) (charmap : List Nat) :
    ∀ n i r, createChar_loop s charmap i n = some r → r.1 = s := by
  intro n
  induction n with
  | zero =>
    intro i r h
    simp only [createChar_loop, Option.some.injEq] at h
    rw [← h]
  | succ n ih =>
    intro i r h
    rw [createChar_loop] at h
    cases hc : charmap[i]? with
    | none => rw [hc] at h; cases h
    | some b =>
      rw [hc] at h
      simp only [write_eq] at h
      cases hl : createChar_loop s charmap (i + 1) n with
      | none => rw [hl] at h; cases h
      | some r2 =>
        rw [hl] at h
        simp only [Option.some.injEq] at h
        rw [← h]
        exact ih (i + 1) r2 hl

theorem createChar_state (s : SPI_VFD) (location : Nat) (charmap : List Nat)
    (r : SPI_VFD × Trace) (h : createChar s location charmap = some r) : r.1 = s := by
  unfold createChar at h
  simp only [command_eq] at h
  cases hl : createChar_loop s charmap 0 8 with
  | none => rw [hl] at h; cases h
  | some r2 =>
    rw [hl] at h
    simp only [Option.some.injEq] at h
    rw [← h]
    exact createChar_loop_state s charmap 8 0 r2 hl

theorem setCursor_state (s : SPI_VFD) (col row : Nat) (r : SPI_VFD × Trace)
    (h : setCursor s col row = some r) : r.1 = s := by
  unfold setCursor at h
  cases ho : row_offsets[setCursor_row s row]? with
  | none => rw [ho] at h; cases h
  | some off =>
    rw [ho] at h
    simp only [Option.some.injEq] at h
    rw [← h]
    rfl

/-- Every public call other than `begin` leaves `_numlines` as it was. -/
theorem call_numlines (k : Consts) (s : SPI_VFD) (op : Op) (r : SPI_VFD × Trace)
    (h : call k s op = some r) (hop : ∀ cols lines dotsize, op ≠ Op.begin cols lines dotsize) :
    r.1._numlines = s._numlines := by
  cases op with
  | begin cols lines dotsize => exact absurd rfl (hop cols lines dotsize)
  | setCursor col row => rw [setCursor_state s col row r h]
  | createChar location charmap => rw [createChar_state s location charmap r h]
  | _ =>
    simp only [call, Option.some.injEq] at h
    rw [← h]
    rfl

theorem callAll_numlines (k : Consts) :
    ∀ (ops : List Op) (start s : SPI_VFD),
      (∀ cols lines dotsize, Op.begin cols lines dotsize ∈ ops → 1 ≤ lines) →
      1 ≤ start._numlines → callAll k start ops = some s → 1 ≤ s._numlines := by
  intro ops
  induction ops with
  | nil =>
    intro start s _ h0 h
    simp only [callAll, Option.some.injEq] at h
    rw [← h]; exact h0
  | cons op ops ih =>
    intro start s hb h0 h
    rw [callAll] at h
    cases hc : call k start op with
    | none => rw [hc] at h; cases h
    | some r =>
      rw [hc] at h
      refine ih r.1 s (fun c l d hm => hb c l d (List.mem_cons_of_mem _ hm)) ?_ h
      by_cases hop : ∀ cols lines dotsize, op ≠ Op.begin cols lines dotsize
      · rw [call_numlines k start op r hc hop]; exact h0
      · push_neg at hop
        obtain ⟨c, l, d, rfl⟩ := hop
        simp only [call, Option.some.injEq] at hc
        rw [← hc, begin_numlines]
        exact hb c l d (List.mem_cons_self _ _)

theorem init_numlines (k : Consts) (s0 : SPI_VFD) (data clock chipselect : Nat) :
    (init k s0 data clock chipselect).1._numlines = 2 := by
  exact begin_numlines k
    { s0 with _clock := clock, _data := data, _chipselect := chipselect,
              _displayfunction := k.LCD_8BITMODE % 256 } 20 2 VFD_BRIGHTNESS100

/-- C17, as stated, fails: `begin` stores its `lines` argument unchecked, so
`begin(20, 0)` on a constructed object leaves lineCount at 0. -/
theorem begin_zero_lines :
    (callAll sampleConsts (construct3 sampleConsts sample 11 13 10).1
      [Op.begin 20 0 0]).map (fun x => x._numlines) = some 0 ∧
    ¬ (1 ≤ (begin sampleConsts (construct3 sampleConsts sample 11 13 10).1 20 0 0).1._numlines) := by
  decide

/-- C17, amended: lineCount >= 1 holds after construction (where it is 2) and is
preserved by every public operation other than `begin`, each of which leaves
lineCount as it was; `begin(cols, lines, dotsize)` sets lineCount to `lines`.  Hence
lineCount >= 1 in every state reached from construction by public operations in
which every `begin` is given lines >= 1. -/
theorem numlines_ge_one (k : Consts) (s0 start s : SPI_VFD) (data clock chipselect : Nat)
    (ops : List Op)
    (hstart : start = (construct3 k s0 data clock chipselect).1 ∨
      start = (construct2 k s0 data clock).1)
    (hb : ∀ cols lines dotsize, Op.begin cols lines dotsize ∈ ops → 1 ≤ lines)
    (h : callAll k start ops = some s) :
    start._numlines = 2 ∧ 1 ≤ s._numlines ∧
    (∀ (s1 : SPI_VFD) (op : Op) (r : SPI_VFD × Trace), call k s1 op = some r →
      (∀ cols lines dotsize, op ≠ Op.begin cols lines dotsize) →
      r.1._numlines = s1._numlines) ∧
    (∀ (s1 : SPI_VFD) (cols lines dotsize : Nat),
      (begin k s1 cols lines dotsize).1._numlines = lines) := by
  have h2 : start._numlines = 2 := by
    rcases hstart with e | e <;> rw [e] <;> exact init_numlines _ _ _ _ _
  refine ⟨h2, callAll_numlines k ops start s hb (by omega) h,
    fun s1 op r hr hop => call_numlines k s1 op r hr hop,
    fun s1 c l d => begin_numlines k s1 c l d⟩

/-- Witness of `numlines_ge_one`: construct, `begin(16, 1, 1)`, `setCursor(3, 0)`,
`write(0x41)`. -/
theorem numlines_ge_one_witness :
    1 ≤ (begin sampleConsts (construct3 sampleConsts sample 11 13 10).1 16 1 1).1._numlines :=
  (numlines_ge_one sampleConsts sample (construct3 sampleConsts sample 11 13 10).1
    (begin sampleConsts (construct3 sampleConsts sample 11 13 10).1 16 1 1).1 11 13 10
    [Op.begin 16 1 1, Op.setCursor 3 0, Op.write 0x41] (Or.inl rfl)
    (by
      intro c l d hm
      simp only [List.mem_cons, List.mem_singleton, List.not_mem_nil, or_false] at hm
      rcases hm with hm | hm | hm
      · cases hm; exact le_refl _
      · cases hm
      · cases hm)
    (by decide)).2.1

theorem orAssign_lt_pow (x m n : Nat) (hx : x < 2 ^ n) (hm : m < 2 ^ n) :
    orAssign x m < 2 ^ n := by
  unfold orAssign
  exact lt_of_le_of_lt (Nat.mod_le _ _) (Nat.or_lt_two_pow hx hm)

theorem andNot_le (x m : Nat) : andNot x m ≤ x := by
  unfold andNot
  exact Nat.and_le_left

/-- Every public call keeps the control flags below 8 and the entry flags below 4. -/
theorem call_flags (k : Consts) (s : SPI_VFD) (op : Op) (r : SPI_VFD × Trace)
    (h : call k s op = some r) (hc : s._displaycontrol < 8) (hm : s._displaymode < 4) :
    r.1._displaycontrol < 8 ∧ r.1._displaymode < 4 := by
  have o3 : ∀ m, m < 2 ^ 3 → orAssign s._displaycontrol m < 8 := fun m hm3 =>
    orAssign_lt_pow _ _ 3 (by omega) hm3
  have o2 : ∀ m, m < 2 ^ 2 → orAssign s._displaymode m < 4 := fun m hm2 =>
    orAssign_lt_pow _ _ 2 (by omega) hm2
  have a3 : ∀ m, andNot s._displaycontrol m < 8 := fun m =>
    lt_of_le_of_lt (andNot_le _ _) hc
  have a2 : ∀ m, andNot s._displaymode m < 4 := fun m =>
    lt_of_le_of_lt (andNot_le _ _) hm
  cases op with
  | begin cols lines dotsize =>
    simp only [call, Option.some.injEq] at h
    rw [← h, begin_displaycontrol, begin_displaymode]
    exact ⟨by norm_num, by norm_num⟩
  | setCursor col row => rw [setCursor_state s col row r h]; exact ⟨hc, hm⟩
  | createChar location charmap =>
    rw [createChar_state s location charmap r h]; exact ⟨hc, hm⟩
  | noDisplay => simp only [call, Option.some.injEq] at h; rw [← h]; exact ⟨a3 _, hm⟩
  | display =>
    simp only [call, Option.some.injEq] at h; rw [← h]; exact ⟨o3 _ (by norm_num), hm⟩
  | noCursor => simp only [call, Option.some.injEq] at h; rw [← h]; exact ⟨a3 _, hm⟩
  | cursor =>
    simp only [call, Option.some.injEq] at h; rw [← h]; exact ⟨o3 _ (by norm_num), hm⟩
  | noBlink => simp only [call, Option.some.injEq] at h; rw [← h]; exact ⟨a3 _, hm⟩
  | blink =>
    simp only [call, Option.some.injEq] at h; rw [← h]; exact ⟨o3 _ (by norm_num), hm⟩
  | leftToRight =>
    simp only [call, Option.some.injEq] at h; rw [← h]; exact ⟨hc, o2 _ (by norm_num)⟩
  | rightToLeft => simp only [call, Option.some.injEq] at h; rw [← h]; exact ⟨hc, a2 _⟩
  | autoscroll =>
    simp only [call, Option.some.injEq] at h; rw [← h]; exact ⟨hc, o2 _ (by norm_num)⟩
  | noAutoscroll => simp only [call, Option.some.injEq] at h; rw [← h]; exact ⟨hc, a2 _⟩
  | _ => simp only [call, Option.some.injEq] at h; rw [← h]; exact ⟨hc, hm⟩

theorem callAll_flags (k : Consts) :
    ∀ (ops : List Op) (start s : SPI_VFD), start._displaycontrol < 8 →
      start._displaymode < 4 → callAll k start ops = some s →
      s._displaycontrol < 8 ∧ s._displaymode < 4 := by
  intro ops
  induction ops with
  | nil =>
    intro start s hc hm h
    simp only [callAll, Option.some.injEq] at h
    rw [← h]; exact ⟨hc, hm⟩
  | cons op ops ih =>
    intro start s hc hm h
    rw [callAll] at h
    cases hcall : call k start op with
    | none => rw [hcall] at h; cases h
    | some r =>
      rw [hcall] at h
      have hr := call_flags k start op r hcall hc hm
      exact ih r.1 s hr.1 hr.2 h

theorem init_flags (k : Consts) (s0 : SPI_VFD) (data clock chipselect : Nat) :
    (init k s0 data clock chipselect).1._displaycontrol = 4 ∧
    (init k s0 data clock chipselect).1._displaymode = 2 :=
  ⟨begin_displaycontrol k
      { s0 with _clock := clock, _data := data, _chipselect := chipselect,
                _displayfunction := k.LCD_8BITMODE % 256 } 20 2 VFD_BRIGHTNESS100,
   begin_displaymode k
      { s0 with _clock := clock, _data := data, _chipselect := chipselect,
                _displayfunction := k.LCD_8BITMODE % 256 } 20 2 VFD_BRIGHTNESS100⟩

theorem testBit_false_of_lt (x n i : Nat) (hx : x < 2 ^ n) (hi : n ≤ i) :
    x.testBit i = false :=
  Nat.testBit_lt_two_pow (lt_of_lt_of_le hx (Nat.pow_le_pow_right (by norm_num) hi))

theorem control_payload_bounds (x : Nat) (hx : x < 8) :
    0x08 ≤ (0x08 ||| x) % 256 ∧ (0x08 ||| x) % 256 ≤ 0x0F := by
  interval_cases x <;> decide

theorem entry_payload_bounds (x : Nat) (hx : x < 4) :
    0x04 ≤ (0x04 ||| x) % 256 ∧ (0x04 ||| x) % 256 ≤ 0x07 := by
  interval_cases x <;> decide

/-- C19: in every state reached from construction by any sequence of public
operations (the raw `command()` included, since it changes no field), the control
flags have no bit set outside 0x07 and the entry flags none outside 0x03; so every
display-control payload a control call transmits lies in 0x08..0x0F, every entry-mode
payload an entry-mode call transmits lies in 0x04..0x07, and `begin` transmits 0x06
and 0x0C. -/
theorem flags_in_range (k : Consts) (s0 start s : SPI_VFD) (data clock chipselect : Nat)
    (ops : List Op)
    (hstart : start = (construct3 k s0 data clock chipselect).1 ∨
      start = (construct2 k s0 data clock).1)
    (h : callAll k start ops = some s) :
    s._displaycontrol < 8 ∧ s._displaymode < 4 ∧
    (∀ i, 3 ≤ i → s._displaycontrol.testBit i = false) ∧
    (∀ i, 2 ≤ i → s._displaymode.testBit i = false) ∧
    (∀ c : CtlCall, ∃ p, 0x08 ≤ p ∧ p ≤ 0x0F ∧ (callCtl s c).2 = wire s [Frame.command p]) ∧
    (∀ e ∈ entryCalls, ∃ p, 0x04 ≤ p ∧ p ≤ 0x07 ∧ (e.1 s).2 = wire s [Frame.command p]) ∧
    (∀ cols lines dotsize, ∃ p,
      pinWrites (begin k s cols lines dotsize).2 =
        wire s [Frame.command 0x01, Frame.command 0x02, Frame.command p,
          Frame.command 0x06, Frame.command 0x80, Frame.command 0x0C, Frame.command 0x80]) := by
  have hs : start._displaycontrol < 8 ∧ start._displaymode < 4 := by
    rcases hstart with e | e <;> rw [e]
    · have := init_flags k s0 data clock chipselect
      show (init k s0 data clock chipselect).1._displaycontrol < 8 ∧
        (init k s0 data clock chipselect).1._displaymode < 4
      rw [this.1, this.2]; exact ⟨by norm_num, by norm_num⟩
    · have := init_flags k s0 data clock 0
      show (init k s0 data clock 0).1._displaycontrol < 8 ∧
        (init k s0 data clock 0).1._displaymode < 4
      rw [this.1, this.2]; exact ⟨by norm_num, by norm_num⟩
  obtain ⟨hc, hm⟩ := callAll_flags k ops start s hs.1 hs.2 h
  refine ⟨hc, hm, fun i hi => testBit_false_of_lt _ 3 i (by omega) hi,
    fun i hi => testBit_false_of_lt _ 2 i (by omega) hi, ?_, ?_, ?_⟩
  · intro c
    have hr : (callCtl s c).1._displaycontrol < 8 := by
      cases c
      · exact (call_flags k s Op.display _ rfl hc hm).1
      · exact (call_flags k s Op.noDisplay _ rfl hc hm).1
      · exact (call_flags k s Op.cursor _ rfl hc hm).1
      · exact (call_flags k s Op.noCursor _ rfl hc hm).1
      · exact (call_flags k s Op.blink _ rfl hc hm).1
      · exact (call_flags k s Op.noBlink _ rfl hc hm).1
    have hb := control_payload_bounds _ hr
    refine ⟨(0x08 ||| (callCtl s c).1._displaycontrol) % 256, hb.1, hb.2, ?_⟩
    conv_lhs => rw [callCtl_eq]
  · intro e he
    simp only [entryCalls, List.mem_cons, List.mem_singleton, List.not_mem_nil, or_false] at he
    have fin : ∀ (x : Nat) (t : Trace), x < 4 →
        t = wire s [Frame.command ((0x04 ||| x) % 256)] →
        ∃ p, 0x04 ≤ p ∧ p ≤ 0x07 ∧ t = wire s [Frame.command p] := by
      intro x t hx ht
      have hb := entry_payload_bounds x hx
      exact ⟨(0x04 ||| x) % 256, hb.1, hb.2, ht⟩
    rcases he with rfl | rfl | rfl | rfl
    · refine fin (orAssign s._displaymode 2) _ (orAssign_lt_pow _ _ 2 (by omega) (by norm_num)) ?_
      show (command _ _).2 = _
      rw [command_eq]; rfl
    · refine fin (andNot s._displaymode 2) _ (lt_of_le_of_lt (andNot_le _ _) hm) ?_
      show (command _ _).2 = _
      rw [command_eq]; rfl
    · refine fin (orAssign s._displaymode 1) _ (orAssign_lt_pow _ _ 2 (by omega) (by norm_num)) ?_
      show (command _ _).2 = _
      rw [command_eq]; rfl
    · refine fin (andNot s._displaymode 1) _ (lt_of_le_of_lt (andNot_le _ _) hm) ?_
      show (command _ _).2 = _
      rw [command_eq]; rfl
  · intro cols lines dotsize
    exact ⟨_, begin_pinWrites k s cols lines dotsize⟩

/-- Witness of `flags_in_range`: construct, cursor(), blink(), autoscroll(),
`command(0xFF)`, noDisplay(). -/
theorem flags_in_range_witness :
    (noDisplay (autoscroll (blink (cursor
      (construct3 sampleConsts sample 11 13 10).1).1).1).1).1._displaycontrol < 8 :=
  (flags_in_range sampleConsts sample (construct3 sampleConsts sample 11 13 10).1
    (noDisplay (autoscroll (blink (cursor
      (construct3 sampleConsts sample 11 13 10).1).1).1).1).1 11 13 10
    [Op.cursor, Op.blink, Op.autoscroll, Op.command 0xFF, Op.noDisplay] (Or.inl rfl)
    (by decide)).1

end SPI_VFD
